import Mathlib

/-
Verification development for the Skyscope-Hackintosh configuration
synthesis and kext provisioning tool.

The Python sources are shallowly embedded:
  - Python dictionaries become insertion-ordered association lists over a
    tagged value type (keys are unique in every dictionary the program
    builds, matching Python dict semantics).
  - Python lists become Lean lists, byte strings become lists of byte
    values, and strings stay strings.
  - The probing layer (WMI queries) is an external collaborator; the
    generators receive descriptor lists as parameters, exactly as in the
    source.
  - Sources of nondeterminism or I/O (the 6 random ROM bytes, the release
    feed response, the filesystem, archive extraction) are passed in as
    explicit parameters or environment records.
Each definition carries a reference to the Python function and lines it
embeds.
-/

/-- A plist-style value: the payload type of the configuration trees built
by skyscope_hwprobe.py and skyscope_config_parts.py. -/
inductive Value where
  | str : String → Value
  | bool : Bool → Value
  | int : Int → Value
  | bytes : List Nat → Value
  | list : List Value → Value
  | dict : List (String × Value) → Value

/-- A Python dict with string keys, as an insertion-ordered association
list.  All dictionaries constructed by the program have pairwise distinct
keys; lemmas that need this uniqueness take it as a hypothesis. -/
abbrev Dict := List (String × Value)

/-- Python d[k] read access and d.get(k): the value at the first binding of
the key, if any. -/
def dictLookup : Dict → String → Option Value
  | [], _ => none
  | (k, v) :: rest, key => if k = key then some v else dictLookup rest key

/-- Python d[k] = v: replace the value in place if the key is bound
(keeping its position), otherwise append the binding at the end. -/
def dictInsert : Dict → String → Value → Dict
  | [], key, v => [(key, v)]
  | (k, w) :: rest, key, v =>
    if k = key then (k, v) :: rest else (k, w) :: dictInsert rest key v

/-- Python del d[k]: drop the first binding of the key. -/
def dictErase : Dict → String → Dict
  | [], _ => []
  | (k, w) :: rest, key => if k = key then rest else (k, w) :: dictErase rest key

/-- Python k in d. -/
def dictContains (d : Dict) (k : String) : Bool := (dictLookup d k).isSome

/-- Two-level lookup d[k1][k2] for a dictionary-valued first level. -/
def dictLookup2 (d : Dict) (k1 k2 : String) : Option Value :=
  match dictLookup d k1 with
  | some (Value.dict d1) => dictLookup d1 k2
  | _ => none

/-- View a value as a dictionary.  The Python source only applies
dictionary operations to values that are dictionaries (anything else would
raise at runtime); non-dictionary values are mapped to the empty
dictionary. -/
def asDict : Value → Dict
  | Value.dict d => d
  | _ => []

/-- View a value as a list (same convention as asDict). -/
def asList : Value → List Value
  | Value.list l => l
  | _ => []

/-- Python d.get(k, dflt) for a string-valued field: the bound string if
the key is bound to a string, the default otherwise.  (If the key were
bound to a non-string the Python code would raise on the subsequent string
method call; those crashing executions are outside the embedding.) -/
def getStrD (d : Dict) (k : String) (dflt : String) : String :=
  match dictLookup d k with
  | some (Value.str s) => s
  | _ => dflt

mutual

/-- Structural equality on values, Python ==.  It is also used as a
conservative over-approximation of the identity test the merge engine
performs on one guard (two objects that are identical are in particular
structurally equal). -/
def valueBEq : Value → Value → Bool
  | Value.str a, Value.str b => a == b
  | Value.bool a, Value.bool b => a == b
  | Value.int a, Value.int b => a == b
  | Value.bytes a, Value.bytes b => a == b
  | Value.list a, Value.list b => valueListBEq a b
  | Value.dict a, Value.dict b => entryListBEq a b
  | _, _ => false

/-- Structural equality on value lists. -/
def valueListBEq : List Value → List Value → Bool
  | [], [] => true
  | a :: as, b :: bs => valueBEq a b && valueListBEq as bs
  | _, _ => false

/-- Structural equality on dictionaries. -/
def entryListBEq : List (String × Value) → List (String × Value) → Bool
  | [], [] => true
  | (k, v) :: as, (k2, v2) :: bs => k == k2 && valueBEq v v2 && entryListBEq as bs
  | _, _ => false

end

/-- Equality on optional values (Python == where either side may be None). -/
def optValueBEq : Option Value → Option Value → Bool
  | none, none => true
  | some a, some b => valueBEq a b
  | _, _ => false

/-- Membership of an optional value in a collection of optional values:
Python x in s for a set holding strings and possibly None. -/
def optMem (x : Option Value) : List (Option Value) → Bool
  | [] => false
  | y :: ys => optValueBEq x y || optMem x ys

/-- Characters Python str.split() treats as separators (ASCII whitespace;
the program only ever splits boot-arg strings made of printable ASCII). -/
def isPySpace (c : Char) : Bool :=
  c == ' ' || c == '\t' || c == '\n' || c == '\r' || c == Char.ofNat 11 || c == Char.ofNat 12

/-- Tokenizer behind pySplitWs: walk the characters, accumulating the
current token reversed. -/
def wsTokens : List Char → List Char → List String
  | [], cur => if cur.isEmpty then [] else [cur.reverse.asString]
  | c :: rest, cur =>
    if isPySpace c then
      if cur.isEmpty then wsTokens rest [] else cur.reverse.asString :: wsTokens rest []
    else wsTokens rest (c :: cur)

/-- Python s.split() with no argument: split on whitespace runs, dropping
empty tokens. -/
def pySplitWs (s : String) : List String := wsTokens s.data []

/-- Lexicographic comparison of character lists by code point. -/
def chLe : List Char → List Char → Bool
  | [], _ => true
  | _ :: _, [] => false
  | a :: as, b :: bs => if a = b then chLe as bs else decide (a < b)

/-- Python string comparison (code-point lexicographic). -/
def strLe (a b : String) : Bool := chLe a.data b.data

/-- strLe as a relation, for the sorting machinery. -/
def strLeRel (a b : String) : Prop := strLe a b = true

instance : DecidableRel strLeRel :=
  fun a b => inferInstanceAs (Decidable (strLe a b = true))

/-- Python sorted() on a list of strings: lexicographic by code point. -/
def sortStrings (l : List String) : List String :=
  List.insertionSort strLeRel l

/-- Python " ".join(sorted(list(set(l)))), used by the GPU and audio
generators on whole boot-argument strings. -/
def sortedUniqueJoin (l : List String) : String :=
  String.intercalate " " (sortStrings l.dedup)

/-- Prefix test on character lists. -/
def chStarts : List Char → List Char → Bool
  | [], _ => true
  | _ :: _, [] => false
  | a :: as, b :: bs => a == b && chStarts as bs

/-- Substring occurrence test on character lists. -/
def chFind (needle : List Char) : List Char → Bool
  | [] => needle.isEmpty
  | c :: rest => chStarts needle (c :: rest) || chFind needle rest

/-- Python sub in s for strings. -/
def strContains (s sub : String) : Bool := chFind sub.data s.data

/-- Python s.lower() (the strings classified by this program are ASCII). -/
def pyLower (s : String) : String := (s.data.map Char.toLower).asString

/-- Python s.upper(). -/
def pyUpper (s : String) : String := (s.data.map Char.toUpper).asString

/-- Python s.startswith(p). -/
def pyStartsWith (s p : String) : Bool := chStarts p.data s.data

/-- Python s.endswith(p). -/
def pyEndsWith (s p : String) : Bool := chStarts p.data.reverse s.data.reverse

/-- Value of one hexadecimal digit; 0 for anything else. -/
def hexDigitVal (c : Char) : Nat :=
  if '0' ≤ c && c ≤ '9' then c.toNat - '0'.toNat
  else if 'a' ≤ c && c ≤ 'f' then c.toNat - 'a'.toNat + 10
  else if 'A' ≤ c && c ≤ 'F' then c.toNat - 'A'.toNat + 10
  else 0

/-- Python int(s, 16) on the well-formed 4-digit device identifiers the
probing layer produces. -/
def hexVal (s : String) : Nat := s.data.foldl (fun a c => a * 16 + hexDigitVal c) 0

/-- Python n.to_bytes(2, 'little') (device identifiers fit in 16 bits). -/
def toBytes2LE (n : Nat) : List Nat := [n % 256, n / 256 % 256]

/-- Python n.to_bytes(4, 'little'). -/
def toBytes4LE (n : Nat) : List Nat :=
  [n % 256, n / 256 % 256, n / 65536 % 256, n / 16777216 % 256]

/-- The static kext registry KEXT_INFO_DB of skyscope_config_parts.py
(lines 10-62). -/
def KEXT_INFO_DB : String → Option Dict
  | "Lilu" => some
      [("BundlePath", Value.str "Lilu.kext"),
       ("Comment", Value.str "Core kext patching library"),
       ("ExecutablePath", Value.str "Contents/MacOS/Lilu")]
  | "VirtualSMC" => some
      [("BundlePath", Value.str "VirtualSMC.kext"),
       ("Comment", Value.str "Advanced SMC emulator"),
       ("ExecutablePath", Value.str "Contents/MacOS/VirtualSMC")]
  | "WhateverGreen" => some
      [("BundlePath", Value.str "WhateverGreen.kext"),
       ("Comment", Value.str "Graphics card patching (Intel, AMD, NVIDIA)"),
       ("ExecutablePath", Value.str "Contents/MacOS/WhateverGreen")]
  | "AppleALC" => some
      [("BundlePath", Value.str "AppleALC.kext"),
       ("Comment", Value.str "Audio patching for unsupported codecs"),
       ("ExecutablePath", Value.str "Contents/MacOS/AppleALC")]
  | "RealtekRTL8111" => some
      [("BundlePath", Value.str "RealtekRTL8111.kext"),
       ("Comment", Value.str "Realtek Gigabit Ethernet (RTL8111/8168)"),
       ("ExecutablePath", Value.str "Contents/MacOS/RealtekRTL8111")]
  | "LucyRTL8125Ethernet" => some
      [("BundlePath", Value.str "LucyRTL8125Ethernet.kext"),
       ("Comment", Value.str "Realtek 2.5Gb Ethernet (RTL8125)"),
       ("ExecutablePath", Value.str "Contents/MacOS/LucyRTL8125Ethernet")]
  | "IntelMausi" => some
      [("BundlePath", Value.str "IntelMausi.kext"),
       ("Comment", Value.str "Intel Ethernet LAN kext (most common Intel NICs)"),
       ("ExecutablePath", Value.str "Contents/MacOS/IntelMausi")]
  | "SMCProcessor" => some
      [("BundlePath", Value.str "SMCProcessor.kext"),
       ("Comment", Value.str "VirtualSMC Plugin for CPU temperature monitoring"),
       ("ExecutablePath", Value.str "Contents/MacOS/SMCProcessor")]
  | "SMCSuperIO" => some
      [("BundlePath", Value.str "SMCSuperIO.kext"),
       ("Comment", Value.str "VirtualSMC Plugin for fan speed monitoring"),
       ("ExecutablePath", Value.str "Contents/MacOS/SMCSuperIO")]
  | "NVMeFix" => some
      [("BundlePath", Value.str "NVMeFix.kext"),
       ("Comment", Value.str "NVMe power management and compatibility fixes"),
       ("ExecutablePath", Value.str "Contents/MacOS/NVMeFix")]
  | _ => none

/-- COMMON_KEXT_PROPERTIES of skyscope_config_parts.py (lines 64-70). -/
def COMMON_KEXT_PROPERTIES : Dict :=
  [("Arch", Value.str "Any"),
   ("Enabled", Value.bool true),
   ("MaxKernel", Value.str ""),
   ("MinKernel", Value.str ""),
   ("PlistPath", Value.str "Contents/Info.plist")]

/-- Python d.update(u): assign every binding of u into d in order. -/
def dictUpdate (d u : Dict) : Dict :=
  u.foldl (fun acc kv => dictInsert acc kv.1 kv.2) d

/-- The instantiation pattern entry = KEXT_INFO_DB[name].copy();
entry.update(COMMON_KEXT_PROPERTIES) used throughout the generators. -/
def mkKextEntry (n : String) : Value :=
  Value.dict (dictUpdate ((KEXT_INFO_DB n).getD []) COMMON_KEXT_PROPERTIES)

/-- Python kext.get("BundlePath") on a kext entry. -/
def bundlePathOf (v : Value) : Option Value := dictLookup (asDict v) "BundlePath"

/-- The fixed NVRAM namespace GUID used for boot-args
(skyscope_hwprobe.py line 171). -/
def guidKey : String := "7C436110-AB2A-4BBB-A880-FE41995C9F82"

/-- The guard of the NVRAM special case of merge_config_dicts
(skyscope_hwprobe.py lines 172-173): both trees bind Add to a container
holding the fixed GUID key.  The Python containment tests only make sense
(without raising later) when both Add values are dictionaries. -/
def nvramGuard (mv nv : Dict) : Bool :=
  match dictLookup mv "Add", dictLookup nv "Add" with
  | some (Value.dict ma), some (Value.dict na) =>
    (dictLookup ma guidKey).isSome && (dictLookup na guidKey).isSome
  | _, _ => false

/-- Python container.get("boot-args", "") (skyscope_hwprobe.py lines
178-179). -/
def getBootArgsStr (d : Dict) : String := getStrD d "boot-args" ""

/-- The combined boot-args string of merge_config_dicts (lines 181-184):
tokenize both strings on whitespace, take the set union, drop empty
tokens, sort, and re-join with single spaces. -/
def sortedBootArgs (a b : String) : String :=
  String.intercalate " "
    (sortStrings (((pySplitWs a ++ pySplitWs b).dedup).filter (fun t => t ≠ "")))

/-- The sibling-copy loop of merge_config_dicts (lines 193-195): assign
every incoming binding other than boot-args into the accumulator
container, in order. -/
def copySiblings (acc : Dict) : Dict → Dict
  | [] => acc
  | (k, v) :: rest =>
    if k ≠ "boot-args" then copySiblings (dictInsert acc k v) rest
    else copySiblings acc rest

/-- Merge of the two GUID containers (skyscope_hwprobe.py lines 175-195):
recompute boot-args (deleting the key when the union is empty), then copy
every other incoming binding over the accumulator. -/
def guidContMerge (mc nc : Dict) : Dict :=
  let finalStr := sortedBootArgs (getBootArgsStr mc) (getBootArgsStr nc)
  let mc1 :=
    if finalStr ≠ "" then dictInsert mc "boot-args" (Value.str finalStr)
    else if dictContains mc "boot-args" then dictErase mc "boot-args" else mc
  copySiblings mc1 nc

/-- The whole NVRAM special branch of merge_config_dicts (lines 171-195):
only the GUID container inside Add is touched; the rest of the
accumulator value is kept and the rest of the incoming value is dropped. -/
def nvramSpecialMerge (mv nv : Dict) : Dict :=
  match dictLookup mv "Add", dictLookup nv "Add" with
  | some (Value.dict ma), some (Value.dict na) =>
    (match dictLookup ma guidKey, dictLookup na guidKey with
     | some mcV, some ncV =>
       dictInsert mv "Add"
         (Value.dict (dictInsert ma guidKey
           (Value.dict (guidContMerge (asDict mcV) (asDict ncV)))))
     | _, _ => mv)
  | _, _ => mv

/-- The guard main_dict.get("Kernel") is main_value of merge_config_dicts
(line 201).  The Python test is object identity between the value bound to
"Kernel" in the dictionary currently being merged and the sequence bound
to "Add" in that same dictionary.  On the tree-shaped (alias-free) values
this program merges, identity implies structural equality, so this
structural test over-approximates the source guard; in every configuration
the program builds the "Kernel" binding is a mapping while the compared
value is a sequence, so both tests are false and the branch degenerates to
concatenation. -/
def kernelParentAlias (main : Dict) (mv : List Value) : Bool :=
  match dictLookup main "Kernel" with
  | some (Value.list l) => valueListBEq l mv
  | _ => false

/-- De-duplication by bundle path (skyscope_hwprobe.py lines 202-206):
append an incoming kext only when no existing entry shares its
BundlePath. -/
def dedupByBundlePath (mv nv : List Value) : List Value :=
  (nv.foldl
    (fun (acc : List Value × List (Option Value)) kext =>
      if optMem (bundlePathOf kext) acc.2 then acc
      else (acc.1 ++ [kext], bundlePathOf kext :: acc.2))
    (mv, mv.map bundlePathOf)).1

mutual

/-- merge_config_dicts of skyscope_hwprobe.py (lines 162-211): fold the
incoming bindings into the accumulator in order. -/
def mergeConfigDicts (main : Dict) : Dict → Dict
  | [] => main
  | (key, newV) :: rest => mergeConfigDicts (mergeEntry main key newV) rest
termination_by l => sizeOf l

/-- One iteration of the merge loop (lines 163-210), dispatching on the
shapes of the two values bound to the key. -/
def mergeEntry (main : Dict) (key : String) (newV : Value) : Dict :=
  match dictLookup main key with
  | none => dictInsert main key newV
  | some (Value.dict mv) =>
    match newV with
    | Value.dict nv =>
      if key = "NVRAM" ∧ nvramGuard mv nv then
        dictInsert main key (Value.dict (nvramSpecialMerge mv nv))
      else
        dictInsert main key (Value.dict (mergeConfigDicts mv nv))
    | _ => dictInsert main key newV
  | some (Value.list mv) =>
    match newV with
    | Value.list nv =>
      if key = "Add" ∧ kernelParentAlias main mv then
        dictInsert main key (Value.list (dedupByBundlePath mv nv))
      else
        dictInsert main key (Value.list (mv ++ nv))
    | _ => dictInsert main key newV
  | some _ => dictInsert main key newV
termination_by sizeOf newV

end

/-- The four ACPI patch descriptors added for modern Intel desktop CPUs
(skyscope_config_parts.py lines 119-124). -/
def acpiSsdtEntries : List Value :=
  [Value.dict
     [("Comment", Value.str "SSDT-PLUG-ALT - CPU Power Management"),
      ("Enabled", Value.bool true), ("Path", Value.str "SSDT-PLUG-ALT.aml")],
   Value.dict
     [("Comment", Value.str "SSDT-EC-USBX-DESKTOP - Embedded Controller and USBX Fix"),
      ("Enabled", Value.bool true), ("Path", Value.str "SSDT-EC-USBX-DESKTOP.aml")],
   Value.dict
     [("Comment", Value.str "SSDT-AWAC-DISABLE - Disable AWAC, use system RTC"),
      ("Enabled", Value.bool true), ("Path", Value.str "SSDT-AWAC-DISABLE.aml")],
   Value.dict
     [("Comment", Value.str "SSDT-RHUB - USB Reset"),
      ("Enabled", Value.bool true), ("Path", Value.str "SSDT-RHUB.aml")]]

/-- The modern-Intel-desktop classification of generate_cpu_config_parts
(skyscope_config_parts.py lines 110-115), over the lower-cased brand
string. -/
def isModernIntelDesktop (brand : String) : Bool :=
  strContains brand "intel" &&
  (strContains brand "core" || strContains brand "pentium" || strContains brand "celeron") &&
  (["8th gen", "9th gen", "10th gen", "11th gen", "12th gen", "13th gen", "14th gen"].any
     (fun t => strContains brand t) ||
   ["intel(r) core(tm) i3-", "intel(r) core(tm) i5-",
    "intel(r) core(tm) i7-", "intel(r) core(tm) i9-"].any
     (fun p => pyStartsWith brand p))

/-- generate_cpu_config_parts of skyscope_config_parts.py (lines 74-148).
The 6 random ROM bytes produced by os.urandom are passed in as the
romBytes parameter.  The Python function builds its result by a straight
sequence of assignments into fresh dictionaries with pairwise distinct
keys, which this literal reproduces binding for binding in insertion
order. -/
def generate_cpu_config_parts (cpuInfo : Dict) (targetSmbios : String)
    (romBytes : List Nat) : Dict :=
  let brand := pyLower (getStrD cpuInfo "brand_raw" "")
  let modern := isModernIntelDesktop brand
  let acpiAdd : List Value := if modern then acpiSsdtEntries else []
  let smcPlugins : List Value :=
    if modern then
      ["SMCProcessor", "SMCSuperIO"].foldl
        (fun acc n =>
          match KEXT_INFO_DB n with
          | some _ => acc ++ [mkKextEntry n]
          | none => acc) []
    else []
  let kernelAdd : List Value :=
    smcPlugins ++
      (match KEXT_INFO_DB "NVMeFix" with
       | some _ => [mkKextEntry "NVMeFix"]
       | none => [])
  [("ACPI", Value.dict [("Add", Value.list acpiAdd)]),
   ("Kernel", Value.dict
      [("Add", Value.list kernelAdd),
       ("Quirks", Value.dict
          [("ProvideCurrentCpuInfo", Value.bool true),
           ("AppleXcpmCfgLock", Value.bool true),
           ("AppleCpuPmCfgLock", Value.bool false),
           ("DummyPowerManagement", Value.bool false)]),
       ("Emulate", Value.dict
          [("Cpuid1Data", Value.bytes []), ("Cpuid1Mask", Value.bytes [])])]),
   ("PlatformInfo", Value.dict
      [("Generic", Value.dict
          [("SystemProductName", Value.str targetSmbios),
           ("ProcessorType", Value.int 0),
           ("ROM", Value.bytes romBytes),
           ("SystemSerialNumber", Value.str "NOT_YET_GENERATED_SERIAL"),
           ("MLB", Value.str "NOT_YET_GENERATED_MLB"),
           ("SystemUUID", Value.str "NOT_YET_GENERATED_UUID"),
           ("SpoofVendor", Value.bool true)])])]

/-- The Intel GT1 desktop device-id allow-list of generate_gpu_config_parts
(skyscope_config_parts.py lines 167-171). -/
def intelGt1DesktopDids : List String :=
  ["4680", "4690", "a780", "46a0",
   "4682", "4692", "a782", "a788", "46a2",
   "468b", "469b", "a78b"]

/-- The qualifying CPU generation test of generate_gpu_config_parts
(line 182), over the lower-cased CPU brand string. -/
def isTargetCpuGen (brand : String) : Bool :=
  ["12th gen intel core", "13th gen intel core", "14th gen intel core"].any
    (fun t => strContains brand t)

/-- The integrated-GPU device properties injected at the fixed bus address
(skyscope_config_parts.py lines 185-190). -/
def igpuProps (did : String) : Dict :=
  [("AAPL,ig-platform-id", Value.bytes [11, 0, 160, 0]),
   ("device-id", Value.bytes (toBytes2LE (hexVal did) ++ [0, 0])),
   ("framebuffer-patch-enable", Value.bytes [1, 0, 0, 0]),
   ("framebuffer-stolenmem", Value.bytes [0, 0, 0, 4])]

/-- The mutable loop state of generate_gpu_config_parts (lines 159-163). -/
structure GpuState where
  deviceProps : Dict
  bootArgs : List String
  hasActiveIgpu : Bool
  configured : Bool

/-- One iteration of the GPU loop of generate_gpu_config_parts
(lines 175-215). -/
def gpuStep (cpuBrand : String) (st : GpuState) (gpu : Value) : GpuState :=
  let g := asDict gpu
  let vid := pyLower (getStrD g "VendorID" "")
  let did := pyLower (getStrD g "DeviceID" "")
  if vid = "8086" then
    if isTargetCpuGen cpuBrand ∧ did ∈ intelGt1DesktopDids then
      { deviceProps :=
          dictInsert st.deviceProps "PciRoot(0x0)/Pci(0x2,0x0)" (Value.dict (igpuProps did)),
        bootArgs := st.bootArgs ++ ["agdpmod=pikera"],
        hasActiveIgpu := true,
        configured := true }
    else st
  else if vid = "10de" then
    if did = "13c2" then
      if st.hasActiveIgpu then
        { st with bootArgs := st.bootArgs ++ ["-wegnoegpu"], configured := true }
      else { st with configured := true }
    else
      if st.hasActiveIgpu then
        { st with bootArgs := st.bootArgs ++ ["-wegnoegpu"], configured := true }
      else { st with configured := true }
  else if vid = "1002" then
    { st with bootArgs := st.bootArgs ++ ["agdpmod=pikera"], configured := true }
  else st

/-- Write into d[k1][k2], materializing d[k1] as in the source where the
container is known to exist. -/
def dictSetPath2 (d : Dict) (k1 k2 : String) (v : Value) : Dict :=
  dictInsert d k1
    (Value.dict (dictInsert (asDict ((dictLookup d k1).getD (Value.dict []))) k2 v))

/-- Write the boot-args leaf under NVRAM/Add/GUID. -/
def setBootArgsStr (d : Dict) (s : String) : Dict :=
  let nv := asDict ((dictLookup d "NVRAM").getD (Value.dict []))
  let ad := asDict ((dictLookup nv "Add").getD (Value.dict []))
  let gc := asDict ((dictLookup ad guidKey).getD (Value.dict []))
  dictInsert d "NVRAM"
    (Value.dict (dictInsert nv "Add"
      (Value.dict (dictInsert ad guidKey
        (Value.dict (dictInsert gc "boot-args" (Value.str s)))))))

/-- generate_gpu_config_parts of skyscope_config_parts.py (lines 150-232).
Non-list and non-dictionary inputs are coerced to empty, as in the
source. -/
def generate_gpu_config_parts (gpuList : List Value) (cpuInfo : Dict) : Dict :=
  let base : Dict :=
    [("DeviceProperties", Value.dict [("Add", Value.dict [])]),
     ("NVRAM", Value.dict
        [("Add", Value.dict [(guidKey, Value.dict [("boot-args", Value.str "")])])]),
     ("Kernel", Value.dict [("Add", Value.list [])])]
  let cpuBrand := pyLower (getStrD cpuInfo "brand_raw" "")
  let st := gpuList.foldl (gpuStep cpuBrand) ⟨[], [], false, false⟩
  let kernelAddGpu : List Value :=
    if st.configured then
      match KEXT_INFO_DB "WhateverGreen" with
      | some _ => [mkKextEntry "WhateverGreen"]
      | none => []
    else []
  let d1 := dictSetPath2 base "DeviceProperties" "Add" (Value.dict st.deviceProps)
  let d2 := if ¬ kernelAddGpu.isEmpty then dictSetPath2 d1 "Kernel" "Add" (Value.list kernelAddGpu) else d1
  if st.bootArgs ≠ [] then setBootArgsStr d2 (sortedUniqueJoin st.bootArgs) else d2

/-- The Realtek onboard-audio match of generate_audio_config_parts
(skyscope_config_parts.py lines 254-258): HDAUDIO marker in the upper-cased
PNP identifier, and a non-empty vendor identifier equal to 10EC. -/
def audioMatches (d : Value) : Bool :=
  let dev := asDict d
  let vendorId := getStrD dev "VendorID" ""
  let pnp := pyUpper (getStrD dev "PNPDeviceID" "")
  strContains pnp "HDAUDIO" && vendorId ≠ "" && pyUpper vendorId = "10EC"

/-- The fixed audio bus address (line 250). -/
def audioPciPath : String := "PciRoot(0x0)/Pci(0x1F,0x3)"

/-- The mutable loop state of generate_audio_config_parts (lines 242-246). -/
structure AudioState where
  deviceProps : Dict
  bootArgs : List String
  kernelAdd : List Value
  addedKexts : List String
  found : Bool

/-- The scanning loop of generate_audio_config_parts (lines 253-273): the
first matching device is configured with the fixed layout id 11 and the
loop stops. -/
def audioLoop (st : AudioState) : List Value → AudioState
  | [] => st
  | d :: rest =>
    if audioMatches d then
      if ¬ dictContains st.deviceProps audioPciPath then
        let withAlc :=
          if ¬ st.addedKexts.contains "AppleALC" then
            match KEXT_INFO_DB "AppleALC" with
            | some _ => (st.kernelAdd ++ [mkKextEntry "AppleALC"], st.addedKexts ++ ["AppleALC"])
            | none => (st.kernelAdd, st.addedKexts)
          else (st.kernelAdd, st.addedKexts)
        { deviceProps :=
            dictInsert st.deviceProps audioPciPath
              (Value.dict [("layout-id", Value.bytes (toBytes4LE 11))]),
          bootArgs := st.bootArgs ++ ["alcid=11"],
          kernelAdd := withAlc.1,
          addedKexts := withAlc.2,
          found := true }
      else audioLoop st rest
    else audioLoop st rest

/-- The empty-NVRAM cleanup of generate_audio_config_parts (lines 287-293),
reached only when no onboard Realtek device was found. -/
def cleanupNvram (d : Dict) : Dict :=
  let nv := asDict ((dictLookup d "NVRAM").getD (Value.dict []))
  let ad := asDict ((dictLookup nv "Add").getD (Value.dict []))
  let gc := asDict ((dictLookup ad guidKey).getD (Value.dict []))
  if getStrD gc "boot-args" "" = "" then
    let ad1 := dictErase ad guidKey
    let nv1 := if ad1.isEmpty then dictErase nv "Add" else dictInsert nv "Add" (Value.dict ad1)
    if nv1.isEmpty then dictErase d "NVRAM" else dictInsert d "NVRAM" (Value.dict nv1)
  else d

/-- generate_audio_config_parts of skyscope_config_parts.py
(lines 234-296). -/
def generate_audio_config_parts (audioList : List Value) : Dict :=
  let base : Dict :=
    [("DeviceProperties", Value.dict [("Add", Value.dict [])]),
     ("NVRAM", Value.dict
        [("Add", Value.dict [(guidKey, Value.dict [("boot-args", Value.str "")])])]),
     ("Kernel", Value.dict [("Add", Value.list [])])]
  let st := audioLoop ⟨[], [], [], [], false⟩ audioList
  let d1 := if ¬ st.deviceProps.isEmpty then dictSetPath2 base "DeviceProperties" "Add" (Value.dict st.deviceProps) else base
  let d2 := if ¬ st.kernelAdd.isEmpty then dictSetPath2 d1 "Kernel" "Add" (Value.list st.kernelAdd) else d1
  let d3 := if st.bootArgs ≠ [] then setBootArgsStr d2 (sortedUniqueJoin st.bootArgs) else d2
  if st.found then d3 else cleanupNvram d3

/-- The fixed essential kext order of the post-merge injection pass
(skyscope_hwprobe.py line 277). -/
def essentialKextsOrder : List String := ["Lilu.kext", "VirtualSMC.kext"]

/-- Split a character list on dots. -/
def splitOnDot : List Char → List Char → List (List Char)
  | [], cur => [cur.reverse]
  | c :: rest, cur => if c = '.' then cur.reverse :: splitOnDot rest [] else splitOnDot rest (c :: cur)

/-- Root part of os.path.splitext for names with a genuine extension (the
only inputs here are the two bundle names above). -/
def splitextRoot (s : String) : String :=
  match splitOnDot s.data [] with
  | [] => s
  | [_] => s
  | parts => String.intercalate "." (parts.dropLast.map List.asString)

/-- Bool membership of the bundle path p among the BundlePath fields of a
kext list, as the injection pass tests it against its growing set. -/
def containsPath (l : List Value) (p : String) : Bool :=
  optMem (some (Value.str p)) (l.map bundlePathOf)

/-- The essential-kext injection pass of skyscope_hwprobe.py
(lines 274-298), acting on the merged Kernel/Add list: walk the essential
order reversed, prepending a registry-synthesized entry for each bundle
path not already present. -/
def injectEssentialKexts (kernelAdd : List Value) : List Value :=
  (essentialKextsOrder.reverse.foldl
    (fun (acc : List Value × List (Option Value)) p =>
      if optMem (some (Value.str p)) acc.2 then acc
      else
        match KEXT_INFO_DB (splitextRoot p) with
        | some _ => (mkKextEntry (splitextRoot p) :: acc.1, some (Value.str p) :: acc.2)
        | none => acc)
    (kernelAdd, kernelAdd.map bundlePathOf)).1

/-- The same pass at the whole-configuration level, including the
setdefault calls of line 274 and the write-back of line 298. -/
def injectEssentialsConfig (cfg : Dict) : Dict :=
  let kernel := asDict ((dictLookup cfg "Kernel").getD (Value.dict []))
  let ka := asList ((dictLookup kernel "Add").getD (Value.list []))
  dictInsert cfg "Kernel"
    (Value.dict (dictInsert kernel "Add" (Value.list (injectEssentialKexts ka))))

/-- Index of the first entry of a kext list whose BundlePath equals p
(length of the list when there is none). -/
def firstPathIdx (l : List Value) (p : String) : Nat :=
  l.findIdx (fun v => optValueBEq (bundlePathOf v) (some (Value.str p)))

/-- Scan a class body up to its closing bracket. -/
def classBody : List Char → Option (List Char × List Char)
  | [] => none
  | ']' :: rest => some ([], rest)
  | c :: rest => (classBody rest).map (fun br => (c :: br.1, br.2))

/-- Match one character against a class body with ranges. -/
def classMatch : List Char → Char → Bool
  | [], _ => false
  | a :: '-' :: b :: rest, c =>
    (if rest.isEmpty && b == ']' then false else (a ≤ c && c ≤ b)) || classMatch rest c
  | a :: rest, c => a == c || classMatch rest c

/-- Parse a bracketed character class: optional negation, a class body in
which a leading closing bracket is literal, the remainder of the
pattern; none when the bracket is unterminated. -/
def classSpec (cs : List Char) : Option (Bool × List Char × List Char) :=
  let negAndBody : Bool × List Char :=
    match cs with
    | '!' :: r => (true, r)
    | _ => (false, cs)
  match negAndBody.2 with
  | ']' :: r => (classBody r).map (fun br => (negAndBody.1, ']' :: br.1, br.2))
  | t => (classBody t).map (fun br => (negAndBody.1, br.1, br.2))

/-- Fuel-bounded shell-style wildcard match, the translation semantics of
fnmatch.fnmatch on a POSIX platform: asterisk, question mark, bracketed
character classes with ranges and negation, unterminated brackets taken
literally.  Each recursive call strictly shrinks pattern-plus-string, so
the fuel globFuel is always sufficient. -/
def globMatchF : Nat → List Char → List Char → Bool
  | 0, _, _ => false
  | _ + 1, [], s => s.isEmpty
  | fuel + 1, '*' :: ps, s =>
    globMatchF fuel ps s ||
      (match s with
       | [] => false
       | _ :: s1 => globMatchF fuel ('*' :: ps) s1)
  | fuel + 1, '?' :: ps, s =>
    (match s with
     | [] => false
     | _ :: s1 => globMatchF fuel ps s1)
  | fuel + 1, '[' :: ps, s =>
    (match classSpec ps with
     | some (neg, cnt, rest) =>
       (match s with
        | [] => false
        | c :: s1 => (if neg then !(classMatch cnt c) else classMatch cnt c) && globMatchF fuel rest s1)
     | none =>
       (match s with
        | [] => false
        | c :: s1 => c == '[' && globMatchF fuel ps s1))
  | fuel + 1, p :: ps, s =>
    (match s with
     | [] => false
     | c :: s1 => p == c && globMatchF fuel ps s1)

/-- Adequate fuel for globMatchF. -/
def globFuel (p s : List Char) : Nat := p.length + s.length + 1

/-- fnmatch.fnmatch(name, pattern) as used by download_kext_zip. -/
def fnmatch (name pat : String) : Bool :=
  globMatchF (globFuel pat.data name.data) pat.data name.data

/-- One release-feed asset: name and download address
(skyscope_kext_manager.py, fields read from the assets array). -/
structure Asset where
  name : String
  url : String

/-- The external world download_kext_zip interacts with: the decoded
latest-release response for the repository under consideration (none for a
network, status or JSON failure) and the outcome of streaming an asset
address (the byte count written on success, none for a stream failure). -/
structure DlEnv where
  assets : Option (List Asset)
  contentSize : String → Option Nat

/-- The destination filesystem, path to byte size.  Directory creation
(os.makedirs with exist_ok) is modelled as always succeeding. -/
structure FS where
  files : List (String × Nat)

/-- Size of the file at a path, none when absent. -/
def fsGet (fs : FS) (p : String) : Option Nat :=
  match fs.files.find? (fun kv => kv.1 == p) with
  | some kv => some kv.2
  | none => none

/-- Write a file (replacing any previous one at the path). -/
def fsSet (fs : FS) (p : String) (n : Nat) : FS :=
  ⟨(p, n) :: fs.files.filter (fun kv => kv.1 ≠ p)⟩

/-- Remove a file if present. -/
def fsErase (fs : FS) (p : String) : FS :=
  ⟨fs.files.filter (fun kv => kv.1 ≠ p)⟩

/-- os.path.join for the one join the resolver performs. -/
def joinPath (dir name : String) : String := dir ++ "/" ++ name

/-- Asset selection (skyscope_kext_manager.py lines 50-64): first asset
matching the primary pattern, else first matching the fallback pattern
when one was supplied. -/
def resolveAsset (assets : List Asset) (pat : String) (fallbackPat : Option String) :
    Option Asset :=
  match assets.find? (fun a => fnmatch a.name pat) with
  | some a => some a
  | none =>
    match fallbackPat with
    | some fp => assets.find? (fun a => fnmatch a.name fp)
    | none => none

/-- Result of one download_kext_zip call: the returned path (none on
failure), the filesystem afterwards, and how many asset downloads were
attempted. -/
structure DlOutcome where
  path : Option String
  fs : FS
  downloads : Nat

/-- download_kext_zip of skyscope_kext_manager.py (lines 15-112).  Feed
failures collapse to env.assets = none; kextName and repoPath only feed
the request address and diagnostics.  An existing non-empty file at the
derived destination is returned without downloading; otherwise the asset
is streamed, and a failed stream removes the partial file. -/
def download_kext_zip (env : DlEnv) (kextName repoPath : String) (assetPat : String)
    (downloadDir : String) (fallbackPat : Option String) (fs : FS) : DlOutcome :=
  let _ := kextName
  let _ := repoPath
  match env.assets with
  | none => ⟨none, fs, 0⟩
  | some assets =>
    if assets.isEmpty then ⟨none, fs, 0⟩
    else
      match resolveAsset assets assetPat fallbackPat with
      | none => ⟨none, fs, 0⟩
      | some a =>
        let outPath := joinPath downloadDir a.name
        match fsGet fs outPath with
        | some sz =>
          if sz > 0 then ⟨some outPath, fs, 0⟩
          else
            (match env.contentSize a.url with
             | some n => ⟨some outPath, fsSet fs outPath n, 1⟩
             | none => ⟨none, fsErase fs outPath, 1⟩)
        | none =>
          (match env.contentSize a.url with
           | some n => ⟨some outPath, fsSet fs outPath n, 1⟩
           | none => ⟨none, fsErase fs outPath, 1⟩)

/-- One entry of the recursive scratch-directory enumeration
(Path.rglob in find_kext_in_dir): its path segments relative to the
search root, and whether it is a directory. -/
structure FsEntry where
  parts : List String
  isDir : Bool

/-- Last path segment, Path.name. -/
def entryName (e : FsEntry) : String := e.parts.getLastD ""

/-- The per-item filter of find_kext_in_dir (skyscope_kext_manager.py
lines 125-133): a directory whose name carries the bundle suffix, matched
exactly in plugin mode and by name start otherwise. -/
def kextCandidate (pat : String) (isPluginSearch : Bool) (e : FsEntry) : Bool :=
  e.isDir && pyEndsWith (entryName e) ".kext" &&
    (if isPluginSearch then entryName e == pat else pyStartsWith (entryName e) pat)

/-- The scanning loop of find_kext_in_dir (lines 121-137), carrying the
best (depth, path) found so far; the strict comparison keeps the first
enumerated candidate among equally shallow ones. -/
def fkLoop (pat : String) (isPluginSearch : Bool) :
    List FsEntry → Option (Nat × List String) → Option (Nat × List String)
  | [], best => best
  | e :: rest, best =>
    let best1 :=
      if kextCandidate pat isPluginSearch e then
        match best with
        | none => some (e.parts.length, e.parts)
        | some (d, p) =>
          if e.parts.length < d then some (e.parts.length, e.parts) else some (d, p)
      else best
    fkLoop pat isPluginSearch rest best1

/-- find_kext_in_dir of skyscope_kext_manager.py (lines 114-138) over an
enumerated scratch tree. -/
def find_kext_in_dir (entries : List FsEntry) (pat : String) (isPluginSearch : Bool) :
    Option (List String) :=
  (fkLoop pat isPluginSearch entries none).map (fun dp => dp.2)

/-- The loop state after the audio generator has configured its first
matching device. -/
def audioMatchedState : AudioState :=
  { deviceProps := [(audioPciPath, Value.dict [("layout-id", Value.bytes (toBytes4LE 11))])],
    bootArgs := ["alcid=11"],
    kernelAdd := [mkKextEntry "AppleALC"],
    addedKexts := ["AppleALC"],
    found := true }

/-- The GUID container of a configuration tree: the value at
NVRAM/Add/GUID. -/
def bootArgsContainer (d : Dict) : Option Value :=
  match dictLookup d "NVRAM" with
  | some (Value.dict nv) =>
    (match dictLookup nv "Add" with
     | some (Value.dict ad) => dictLookup ad guidKey
     | _ => none)
  | _ => none

/-- The boot-args leaf of a configuration tree, through the GUID
container. -/
def bootArgsLeaf (d : Dict) : Option Value :=
  match bootArgsContainer d with
  | some (Value.dict g) => dictLookup g "boot-args"
  | _ => none

/-- The condition under which one GPU descriptor makes the GPU generator
record a configured GPU: any NVIDIA- or AMD-vendor descriptor, or an
Intel-vendor descriptor whose device identifier is on the GT1 desktop
allow-list while the CPU brand names a qualifying generation. -/
def gpuConfigures (cpuBrand : String) (gpu : Value) : Bool :=
  let g := asDict gpu
  let vid := pyLower (getStrD g "VendorID" "")
  let did := pyLower (getStrD g "DeviceID" "")
  if vid = "8086" then
    if isTargetCpuGen cpuBrand ∧ did ∈ intelGt1DesktopDids then true else false
  else if vid = "10de" then true
  else if vid = "1002" then true
  else false

theorem dictLookup_dictInsert_self (d : Dict) (k : String) (v : Value) :
    dictLookup (dictInsert d k v) k = some v := by
  induction d with
  | nil => simp [dictInsert, dictLookup]
  | cons kv rest ih =>
    obtain ⟨k1, v1⟩ := kv
    by_cases h : k1 = k
    · simp [dictInsert, dictLookup, h]
    · simp [dictInsert, dictLookup, h, ih]

theorem dictLookup_dictInsert_ne (d : Dict) (k : String) (v : Value) (k2 : String)
    (h : k2 ≠ k) : dictLookup (dictInsert d k v) k2 = dictLookup d k2 := by
  induction d with
  | nil => simp [dictInsert, dictLookup, Ne.symm h]
  | cons kv rest ih =>
    obtain ⟨k1, v1⟩ := kv
    by_cases h1 : k1 = k
    · subst h1
      simp [dictInsert, dictLookup, Ne.symm h]
    · simp only [dictInsert, if_neg h1, dictLookup]
      by_cases h2 : k1 = k2
      · simp [h2]
      · simp [h2, ih]

theorem dictLookup_dictErase_ne (d : Dict) (k k2 : String) (h : k2 ≠ k) :
    dictLookup (dictErase d k) k2 = dictLookup d k2 := by
  induction d with
  | nil => simp [dictErase]
  | cons kv rest ih =>
    obtain ⟨k1, v1⟩ := kv
    by_cases h1 : k1 = k
    · subst h1
      simp [dictErase, dictLookup, Ne.symm h]
    · simp only [dictErase, if_neg h1, dictLookup]
      by_cases h2 : k1 = k2
      · simp [h2]
      · simp [h2, ih]

theorem dictLookup_eq_none_iff (d : Dict) (k : String) :
    dictLookup d k = none ↔ k ∉ d.map Prod.fst := by
  induction d with
  | nil => simp [dictLookup]
  | cons kv rest ih =>
    obtain ⟨k1, v1⟩ := kv
    by_cases h1 : k1 = k
    · simp [dictLookup, h1]
    · simp [dictLookup, h1, ih, Ne.symm h1]

theorem dictLookup_dictErase_self (d : Dict) (k : String)
    (hnd : (d.map Prod.fst).Nodup) : dictLookup (dictErase d k) k = none := by
  induction d with
  | nil => simp [dictErase, dictLookup]
  | cons kv rest ih =>
    obtain ⟨k1, v1⟩ := kv
    simp only [List.map_cons, List.nodup_cons] at hnd
    by_cases h1 : k1 = k
    · subst h1
      simp only [dictErase, if_pos rfl]
      exact (dictLookup_eq_none_iff rest k1).2 hnd.1
    · simp [dictErase, dictLookup, h1, ih hnd.2]

theorem dictLookup_mem (d : Dict) (k : String) (v : Value)
    (h : dictLookup d k = some v) : (k, v) ∈ d := by
  induction d with
  | nil => simp [dictLookup] at h
  | cons kv rest ih =>
    obtain ⟨k1, v1⟩ := kv
    by_cases h1 : k1 = k
    · subst h1
      rw [dictLookup, if_pos rfl] at h
      injection h with h2
      subst h2
      exact List.mem_cons_self _ _
    · simp only [dictLookup, if_neg h1] at h
      exact List.mem_cons_of_mem _ (ih h)

theorem copySiblings_lookup_bootargs (nc : Dict) : ∀ (acc : Dict),
    dictLookup (copySiblings acc nc) "boot-args" = dictLookup acc "boot-args" := by
  induction nc with
  | nil => intro acc; rfl
  | cons kv rest ih =>
    intro acc
    obtain ⟨k1, v1⟩ := kv
    by_cases h1 : k1 = "boot-args"
    · simp [copySiblings, h1, ih]
    · simp only [copySiblings, if_pos h1]
      rw [ih, dictLookup_dictInsert_ne _ _ _ _ (fun hh => h1 hh.symm)]

theorem copySiblings_lookup_none (nc : Dict) : ∀ (acc : Dict) (k : String),
    dictLookup nc k = none →
    dictLookup (copySiblings acc nc) k = dictLookup acc k := by
  induction nc with
  | nil => intro acc k _; rfl
  | cons kv rest ih =>
    intro acc k h
    obtain ⟨k1, v1⟩ := kv
    by_cases h1 : k1 = k
    · rw [dictLookup, if_pos h1] at h
      cases h
    · rw [dictLookup, if_neg h1] at h
      by_cases h2 : k1 = "boot-args"
      · simp [copySiblings, h2, ih _ _ h]
      · simp only [copySiblings, if_pos h2]
        rw [ih _ _ h, dictLookup_dictInsert_ne _ _ _ _ (fun hh => h1 hh.symm)]

theorem copySiblings_lookup_some (nc : Dict) : ∀ (acc : Dict) (k : String) (v : Value),
    k ≠ "boot-args" → (nc.map Prod.fst).Nodup → dictLookup nc k = some v →
    dictLookup (copySiblings acc nc) k = some v := by
  induction nc with
  | nil => intro acc k v _ _ h; cases h
  | cons kv rest ih =>
    intro acc k v hk hnd h
    obtain ⟨k1, v1⟩ := kv
    simp only [List.map_cons, List.nodup_cons] at hnd
    by_cases h1 : k1 = k
    · subst h1
      rw [dictLookup, if_pos rfl] at h
      injection h with h2
      subst h2
      simp only [copySiblings, if_pos hk]
      rw [copySiblings_lookup_none rest _ _ ((dictLookup_eq_none_iff rest k1).2 hnd.1),
        dictLookup_dictInsert_self]
    · rw [dictLookup, if_neg h1] at h
      by_cases h2 : k1 = "boot-args"
      · simp [copySiblings, h2, ih _ _ _ hk hnd.2 h]
      · simp only [copySiblings, if_pos h2]
        exact ih _ _ _ hk hnd.2 h

theorem chLe_total (a : List Char) : ∀ b, chLe a b = true ∨ chLe b a = true := by
  induction a with
  | nil => intro b; left; rfl
  | cons x xs ih =>
    intro b
    cases b with
    | nil => right; rfl
    | cons y ys =>
      by_cases h : x = y
      · subst h
        simp only [chLe, if_pos rfl]
        exact ih ys
      · rcases lt_or_gt_of_ne h with hlt | hgt
        · left; simp [chLe, h, hlt]
        · right; simp [chLe, Ne.symm h, hgt]

theorem chLe_trans (a : List Char) : ∀ b c, chLe a b = true → chLe b c = true →
    chLe a c = true := by
  induction a with
  | nil => intro b c _ _; rfl
  | cons x xs ih =>
    intro b c hab hbc
    cases b with
    | nil => cases hab
    | cons y ys =>
      cases c with
      | nil => cases hbc
      | cons z zs =>
        by_cases hxy : x = y
        · subst hxy
          rw [chLe, if_pos rfl] at hab
          by_cases hyz : x = z
          · subst hyz
            rw [chLe, if_pos rfl] at hbc ⊢
            exact ih _ _ hab hbc
          · rw [chLe, if_neg hyz] at hbc ⊢
            exact hbc
        · rw [chLe, if_neg hxy] at hab
          by_cases hyz : y = z
          · subst hyz
            rw [chLe, if_neg hxy]
            exact hab
          · rw [chLe, if_neg hyz] at hbc
            have hxz : x < z := lt_trans (of_decide_eq_true hab) (of_decide_eq_true hbc)
            rw [chLe, if_neg (ne_of_lt hxz)]
            exact decide_eq_true hxz

theorem chLe_antisymm (a : List Char) : ∀ b, chLe a b = true → chLe b a = true →
    a = b := by
  induction a with
  | nil =>
    intro b _ hba
    cases b with
    | nil => rfl
    | cons y ys => cases hba
  | cons x xs ih =>
    intro b hab hba
    cases b with
    | nil => cases hab
    | cons y ys =>
      by_cases hxy : x = y
      · subst hxy
        rw [chLe, if_pos rfl] at hab hba
        rw [ih _ hab hba]
      · rw [chLe, if_neg hxy] at hab
        rw [chLe, if_neg (Ne.symm hxy)] at hba
        exact absurd (of_decide_eq_true hba) (lt_asymm (of_decide_eq_true hab))

theorem strng_antisymm (a b : String) (hab : strLeRel a b) (hba : strLeRel b a) : a = b := by
  cases a with
  | mk da =>
    cases b with
    | mk db =>
      rw [chLe_antisymm da db hab hba]

theorem sortStrings_eq_of_perm_nodup (a b : List String) (ha : a.Nodup) (hb : b.Nodup)
    (h : ∀ x, x ∈ a ↔ x ∈ b) : sortStrings a = sortStrings b := by
  haveI : IsTotal String strLeRel := ⟨fun a b => chLe_total a.data b.data⟩
  haveI : IsTrans String strLeRel := ⟨fun a b c hab hbc => chLe_trans a.data b.data c.data hab hbc⟩
  haveI : IsAntisymm String strLeRel := ⟨strng_antisymm⟩
  have hp : a.Perm b := (List.perm_ext_iff_of_nodup ha hb).2 h
  exact List.eq_of_perm_of_sorted
    (((List.perm_insertionSort _ a).trans hp).trans (List.perm_insertionSort _ b).symm)
    (List.sorted_insertionSort _ a) (List.sorted_insertionSort _ b)

theorem sortedBootArgs_comm (a b : String) : sortedBootArgs a b = sortedBootArgs b a := by
  unfold sortedBootArgs
  congr 1
  apply sortStrings_eq_of_perm_nodup
  · exact (List.nodup_dedup _).filter _
  · exact (List.nodup_dedup _).filter _
  · intro x
    simp only [List.mem_filter, List.mem_dedup, List.mem_append]
    tauto

theorem mergeEntry_lookup_ne (main : Dict) (key : String) (v : Value) (k2 : String)
    (h : k2 ≠ key) : dictLookup (mergeEntry main key v) k2 = dictLookup main k2 := by
  simp only [mergeEntry]
  repeat' split
  all_goals exact dictLookup_dictInsert_ne _ _ _ _ h

theorem mergeConfigDicts_lookup_of_not_mem (l : Dict) : ∀ (main : Dict) (key : String),
    (∀ kv ∈ l, kv.1 ≠ key) →
    dictLookup (mergeConfigDicts main l) key = dictLookup main key := by
  induction l with
  | nil => intro main key _; simp [mergeConfigDicts]
  | cons kv rest ih =>
    intro main key h
    obtain ⟨k1, v1⟩ := kv
    simp only [mergeConfigDicts]
    rw [ih _ _ (fun kv2 hm => h kv2 (List.mem_cons_of_mem _ hm))]
    exact mergeEntry_lookup_ne _ _ _ _ (Ne.symm (h (k1, v1) (List.mem_cons_self _ _)))

theorem merge_nvram_special (new : Dict) : ∀ (main mv nv : Dict),
    (new.map Prod.fst).Nodup → ("NVRAM", Value.dict nv) ∈ new →
    dictLookup main "NVRAM" = some (Value.dict mv) → nvramGuard mv nv = true →
    dictLookup (mergeConfigDicts main new) "NVRAM" =
      some (Value.dict (nvramSpecialMerge mv nv)) := by
  induction new with
  | nil => intro main mv nv _ hmem _ _; cases hmem
  | cons kv rest ih =>
    intro main mv nv hnd hmem hm hg
    obtain ⟨k1, v1⟩ := kv
    simp only [List.map_cons, List.nodup_cons] at hnd
    rcases List.mem_cons.1 hmem with hhead | htail
    · have he1 : k1 = "NVRAM" := congrArg Prod.fst hhead.symm
      have he2 : v1 = Value.dict nv := congrArg Prod.snd hhead.symm
      subst he1
      subst he2
      have hnvr : ∀ kv2 ∈ rest, kv2.1 ≠ "NVRAM" := by
        intro kv2 hkv2 hcon
        exact hnd.1 (hcon ▸ List.mem_map.2 ⟨kv2, hkv2, rfl⟩)
      simp only [mergeConfigDicts]
      rw [mergeConfigDicts_lookup_of_not_mem rest _ _ hnvr]
      simp only [mergeEntry, hm]
      rw [if_pos ⟨trivial, hg⟩]
      exact dictLookup_dictInsert_self _ _ _
    · have hk1 : k1 ≠ "NVRAM" := by
        intro hcon
        exact hnd.1 (hcon ▸ List.mem_map.2 ⟨("NVRAM", Value.dict nv), htail, rfl⟩)
      simp only [mergeConfigDicts]
      refine ih _ _ _ hnd.2 htail ?_ hg
      rw [mergeEntry_lookup_ne _ _ _ _ (Ne.symm hk1)]
      exact hm

theorem nvramSpecialMerge_eq (mv nv ma na mc nc : Dict)
    (hma : dictLookup mv "Add" = some (Value.dict ma))
    (hna : dictLookup nv "Add" = some (Value.dict na))
    (hmc : dictLookup ma guidKey = some (Value.dict mc))
    (hnc : dictLookup na guidKey = some (Value.dict nc)) :
    nvramSpecialMerge mv nv =
      dictInsert mv "Add" (Value.dict (dictInsert ma guidKey
        (Value.dict (guidContMerge mc nc)))) := by
  simp only [nvramSpecialMerge, hma, hna, hmc, hnc, asDict]

theorem guidContMerge_bootargs (mc nc : Dict) (hndMc : (mc.map Prod.fst).Nodup) :
    dictLookup (guidContMerge mc nc) "boot-args" =
      (if sortedBootArgs (getBootArgsStr mc) (getBootArgsStr nc) = "" then none
       else some (Value.str (sortedBootArgs (getBootArgsStr mc) (getBootArgsStr nc)))) := by
  simp only [guidContMerge]
  rw [copySiblings_lookup_bootargs]
  by_cases hs : sortedBootArgs (getBootArgsStr mc) (getBootArgsStr nc) = ""
  · rw [if_pos hs, if_neg (by simpa using hs)]
    by_cases hc : dictContains mc "boot-args"
    · rw [if_pos hc]
      exact dictLookup_dictErase_self _ _ hndMc
    · rw [if_neg hc]
      exact Option.not_isSome_iff_eq_none.mp (by simpa [dictContains] using hc)
  · rw [if_neg hs, if_pos hs]
    exact dictLookup_dictInsert_self _ _ _

theorem guidContMerge_sibling (mc nc : Dict) (k : String) (hk : k ≠ "boot-args")
    (hndNc : (nc.map Prod.fst).Nodup) :
    dictLookup (guidContMerge mc nc) k =
      (match dictLookup nc k with
       | some v => some v
       | none => dictLookup mc k) := by
  simp only [guidContMerge]
  cases hcase : dictLookup nc k with
  | some v =>
    rw [copySiblings_lookup_some nc _ _ _ hk hndNc hcase]
  | none =>
    rw [copySiblings_lookup_none nc _ _ hcase]
    by_cases hs : sortedBootArgs (getBootArgsStr mc) (getBootArgsStr nc) = ""
    · rw [if_neg (by simpa using hs)]
      by_cases hc : dictContains mc "boot-args"
      · rw [if_pos hc]
        exact dictLookup_dictErase_ne _ _ _ hk
      · rw [if_neg hc]
    · rw [if_pos hs]
      exact dictLookup_dictInsert_ne _ _ _ _ hk

theorem audioLoop_no_match (l : List Value) : ∀ (st : AudioState),
    (∀ d ∈ l, audioMatches d = false) → audioLoop st l = st := by
  induction l with
  | nil => intro st _; rfl
  | cons d rest ih =>
    intro st h
    have hd : audioMatches d = false := h d (List.mem_cons_self _ _)
    simp only [audioLoop, hd, Bool.false_eq_true, if_false]
    exact ih st (fun d2 hd2 => h d2 (List.mem_cons_of_mem _ hd2))

theorem audioLoop_first_match (l : List Value) :
    (∃ d ∈ l, audioMatches d = true) →
    audioLoop ⟨[], [], [], [], false⟩ l = audioMatchedState := by
  induction l with
  | nil => rintro ⟨d, hd, _⟩; cases hd
  | cons d rest ih =>
    rintro ⟨d2, hd2, hm⟩
    rcases List.mem_cons.1 hd2 with rfl | htail
    · simp only [audioLoop, hm, if_true]
      rfl
    · by_cases hd : audioMatches d = true
      · simp only [audioLoop, hd, if_true]
        rfl
      · simp only [audioLoop]
        rw [if_neg hd]
        exact ih ⟨d2, htail, hm⟩

/-- C5 (amended): when no audio descriptor matches the Realtek marker, the
audio generator removes only the NVRAM subtree; the DeviceProperties/Add
and Kernel/Add containers survive as empty containers, contrary to the
original claim that no section holding only empty sub-containers
survives. -/
theorem C5_no_match_prunes_only_nvram (l : List Value) (h : ∀ d ∈ l, audioMatches d = false) :
    generate_audio_config_parts l =
      [("DeviceProperties", Value.dict [("Add", Value.dict [])]),
       ("Kernel", Value.dict [("Add", Value.list [])])] := by
  have hst := audioLoop_no_match l ⟨[], [], [], [], false⟩ h
  simp only [generate_audio_config_parts, hst]
  rfl

/-- C9: with at least two devices matching the Realtek marker (in fact
with at least one), the audio generator configures exactly one device:
the output holds exactly one device-property entry with the little-endian
layout id at the fixed bus address, the boot-args leaf is exactly the one
alcid argument, and the AppleALC component appears exactly once in
Kernel/Add. -/
theorem C9_audio_first_match_wins (l : List Value)
    (h2 : 2 ≤ (l.filter (fun d => audioMatches d)).length) :
    dictLookup2 (generate_audio_config_parts l) "DeviceProperties" "Add" =
        some (Value.dict [(audioPciPath, Value.dict [("layout-id", Value.bytes (toBytes4LE 11))])]) ∧
      bootArgsLeaf (generate_audio_config_parts l) = some (Value.str "alcid=11") ∧
      dictLookup2 (generate_audio_config_parts l) "Kernel" "Add" =
        some (Value.list [mkKextEntry "AppleALC"]) := by
  have hex : ∃ d ∈ l, audioMatches d = true := by
    rcases hl : l.filter (fun d => audioMatches d) with _ | ⟨d, rest⟩
    · rw [hl] at h2; cases h2
    · have hdmem : d ∈ l.filter (fun d => audioMatches d) := by rw [hl]; exact List.mem_cons_self _ _
      have := List.mem_filter.1 hdmem
      exact ⟨d, this.1, this.2⟩
  have hst := audioLoop_first_match l hex
  refine ⟨?_, ?_, ?_⟩ <;> simp only [generate_audio_config_parts, hst] <;> rfl

theorem inject_cases (l : List Value) :
    (containsPath l "Lilu.kext" = true → containsPath l "VirtualSMC.kext" = true →
      injectEssentialKexts l = l) ∧
    (containsPath l "Lilu.kext" = false → containsPath l "VirtualSMC.kext" = true →
      injectEssentialKexts l = mkKextEntry "Lilu" :: l) ∧
    (containsPath l "Lilu.kext" = true → containsPath l "VirtualSMC.kext" = false →
      injectEssentialKexts l = mkKextEntry "VirtualSMC" :: l) ∧
    (containsPath l "Lilu.kext" = false → containsPath l "VirtualSMC.kext" = false →
      injectEssentialKexts l = mkKextEntry "Lilu" :: mkKextEntry "VirtualSMC" :: l) := by
  obtain ⟨dbV, hdV⟩ : ∃ db, KEXT_INFO_DB (splitextRoot "VirtualSMC.kext") = some db := ⟨_, rfl⟩
  obtain ⟨dbL, hdL⟩ : ∃ db, KEXT_INFO_DB (splitextRoot "Lilu.kext") = some db := ⟨_, rfl⟩
  have hmkV : mkKextEntry (splitextRoot "VirtualSMC.kext") = mkKextEntry "VirtualSMC" := rfl
  have hmkL : mkKextEntry (splitextRoot "Lilu.kext") = mkKextEntry "Lilu" := rfl
  have hne : optValueBEq (some (Value.str "Lilu.kext")) (some (Value.str "VirtualSMC.kext")) = false := rfl
  simp only [containsPath] at *
  refine ⟨?_, ?_, ?_, ?_⟩ <;> intro hL hV <;>
    simp [injectEssentialKexts, essentialKextsOrder, hL, hV, hdV, hdL, hmkV, hmkL, hne, optMem]

theorem containsPath_cons (x : Value) (l : List Value) (p : String) :
    containsPath (x :: l) p =
      (optValueBEq (some (Value.str p)) (bundlePathOf x) || containsPath l p) := rfl

/-- C3 (amended): after the essential-component injection pass the
Kernel/Add list always contains entries with bundle paths Lilu.kext and
VirtualSMC.kext, and the previously present entries are kept in order as
a suffix; when the starting list contains neither essential bundle path,
the synthesized Lilu entry lands at index 0 and VirtualSMC at index 1, so
Lilu strictly precedes VirtualSMC.  (The original unconditional ordering
claim fails when Lilu alone is already present: the synthesized
VirtualSMC entry is prepended in front of it.) -/
theorem C3_essential_injection_amended (l : List Value) :
    containsPath (injectEssentialKexts l) "Lilu.kext" = true ∧
    containsPath (injectEssentialKexts l) "VirtualSMC.kext" = true ∧
    (∃ pre, injectEssentialKexts l = pre ++ l) ∧
    (containsPath l "Lilu.kext" = false → containsPath l "VirtualSMC.kext" = false →
      injectEssentialKexts l = mkKextEntry "Lilu" :: mkKextEntry "VirtualSMC" :: l ∧
      firstPathIdx (injectEssentialKexts l) "Lilu.kext" = 0 ∧
      firstPathIdx (injectEssentialKexts l) "VirtualSMC.kext" = 1) := by
  obtain ⟨h11, h01, h10, h00⟩ := inject_cases l
  have hbL : optValueBEq (some (Value.str "Lilu.kext")) (bundlePathOf (mkKextEntry "Lilu")) = true := rfl
  have hbV : optValueBEq (some (Value.str "VirtualSMC.kext")) (bundlePathOf (mkKextEntry "VirtualSMC")) = true := rfl
  by_cases hL : containsPath l "Lilu.kext" = true
  · by_cases hV : containsPath l "VirtualSMC.kext" = true
    · rw [h11 hL hV]
      refine ⟨hL, hV, ⟨[], rfl⟩, ?_⟩
      intro hc
      rw [hc] at hL
      cases hL
    · have hVf : containsPath l "VirtualSMC.kext" = false := Bool.not_eq_true _ ▸ Bool.eq_false_iff.2 hV
      rw [h10 hL hVf]
      refine ⟨?_, ?_, ⟨[mkKextEntry "VirtualSMC"], rfl⟩, ?_⟩
      · rw [containsPath_cons, hL, Bool.or_true]
      · rw [containsPath_cons, hbV, Bool.true_or]
      · intro hc
        rw [hc] at hL
        cases hL
  · have hLf : containsPath l "Lilu.kext" = false := Bool.eq_false_iff.2 hL
    by_cases hV : containsPath l "VirtualSMC.kext" = true
    · rw [h01 hLf hV]
      refine ⟨?_, ?_, ⟨[mkKextEntry "Lilu"], rfl⟩, ?_⟩
      · rw [containsPath_cons, hbL, Bool.true_or]
      · rw [containsPath_cons, hV, Bool.or_true]
      · intro _ hc
        rw [hc] at hV
        cases hV
    · have hVf : containsPath l "VirtualSMC.kext" = false := Bool.eq_false_iff.2 hV
      rw [h00 hLf hVf]
      refine ⟨?_, ?_, ⟨[mkKextEntry "Lilu", mkKextEntry "VirtualSMC"], rfl⟩, ?_⟩
      · rw [containsPath_cons, hbL, Bool.true_or]
      · rw [containsPath_cons]
        have : optValueBEq (some (Value.str "VirtualSMC.kext")) (bundlePathOf (mkKextEntry "Lilu")) = false := rfl
        rw [this, Bool.false_or, containsPath_cons, hbV, Bool.true_or]
      · intro _ _
        have p1 : optValueBEq (bundlePathOf (mkKextEntry "Lilu")) (some (Value.str "Lilu.kext")) = true := rfl
        have p2 : optValueBEq (bundlePathOf (mkKextEntry "Lilu")) (some (Value.str "VirtualSMC.kext")) = false := rfl
        have p3 : optValueBEq (bundlePathOf (mkKextEntry "VirtualSMC")) (some (Value.str "VirtualSMC.kext")) = true := rfl
        refine ⟨rfl, ?_, ?_⟩
        · simp [firstPathIdx, List.findIdx_cons, p1]
        · simp [firstPathIdx, List.findIdx_cons, p2, p3]

theorem dictSetPath2_lookup2_self (d : Dict) (k1 k2 : String) (v : Value) :
    dictLookup2 (dictSetPath2 d k1 k2 v) k1 k2 = some v := by
  simp only [dictSetPath2, dictLookup2, dictLookup_dictInsert_self]

theorem dictSetPath2_lookup2_other (d : Dict) (k1 k2 g1 g2 : String) (v : Value)
    (h : g1 ≠ k1) : dictLookup2 (dictSetPath2 d k1 k2 v) g1 g2 = dictLookup2 d g1 g2 := by
  simp only [dictSetPath2, dictLookup2, dictLookup_dictInsert_ne _ _ _ _ h]

theorem setBootArgsStr_lookup2_other (d : Dict) (s : String) (g1 g2 : String)
    (h : g1 ≠ "NVRAM") : dictLookup2 (setBootArgsStr d s) g1 g2 = dictLookup2 d g1 g2 := by
  simp only [setBootArgsStr, dictLookup2, dictLookup_dictInsert_ne _ _ _ _ h]

theorem gpuStep_configured (b : String) (st : GpuState) (g : Value) :
    (gpuStep b st g).configured = (st.configured || gpuConfigures b g) := by
  unfold gpuStep gpuConfigures
  by_cases h1 : pyLower (getStrD (asDict g) "VendorID" "") = "8086"
  · rw [if_pos h1, if_pos h1]
    by_cases h2 : isTargetCpuGen b = true ∧ pyLower (getStrD (asDict g) "DeviceID" "") ∈ intelGt1DesktopDids
    · rw [if_pos h2, if_pos h2]
      simp
    · rw [if_neg h2, if_neg h2]
      simp
  · rw [if_neg h1, if_neg h1]
    by_cases h3 : pyLower (getStrD (asDict g) "VendorID" "") = "10de"
    · rw [if_pos h3, if_pos h3]
      by_cases h4 : pyLower (getStrD (asDict g) "DeviceID" "") = "13c2"
      · rw [if_pos h4]
        by_cases h5 : st.hasActiveIgpu = true
        · rw [if_pos h5]
          simp
        · rw [if_neg h5]
          simp
      · rw [if_neg h4]
        by_cases h5 : st.hasActiveIgpu = true
        · rw [if_pos h5]
          simp
        · rw [if_neg h5]
          simp
    · rw [if_neg h3, if_neg h3]
      by_cases h6 : pyLower (getStrD (asDict g) "VendorID" "") = "1002"
      · rw [if_pos h6, if_pos h6]
        simp
      · rw [if_neg h6, if_neg h6]
        simp

theorem gpuLoop_configured (l : List Value) : ∀ (b : String) (st : GpuState),
    (l.foldl (gpuStep b) st).configured = (st.configured || l.any (gpuConfigures b)) := by
  induction l with
  | nil => intro b st; simp
  | cons g rest ih =>
    intro b st
    simp only [List.foldl_cons, List.any_cons, ih, gpuStep_configured, Bool.or_assoc]

/-- C4 (amended): the GPU generator's Kernel/Add output is the singleton
WhateverGreen entry exactly when some descriptor configures a GPU - any
NVIDIA- or AMD-vendor descriptor, or an Intel-vendor descriptor whose
device id is on the GT1 desktop allow-list while the CPU brand names a
12th-14th generation Intel Core - and the empty list otherwise.  (The
original claim, that any Intel/NVIDIA/AMD descriptor at all suffices,
fails for Intel descriptors off the allow-list.) -/
theorem C4_whatevergreen_iff_configured (l : List Value) (cpu : Dict) :
    dictLookup2 (generate_gpu_config_parts l cpu) "Kernel" "Add" =
      some (Value.list
        (if l.any (gpuConfigures (pyLower (getStrD cpu "brand_raw" ""))) = true then
          [mkKextEntry "WhateverGreen"] else [])) := by
  obtain ⟨dbW, hdbW⟩ : ∃ db, KEXT_INFO_DB "WhateverGreen" = some db := ⟨_, rfl⟩
  by_cases hany : l.any (gpuConfigures (pyLower (getStrD cpu "brand_raw" ""))) = true
  · simp only [generate_gpu_config_parts, hdbW, gpuLoop_configured, Bool.false_or, hany,
      if_true, List.isEmpty_cons, Bool.not_false, Bool.false_eq_true, not_false_eq_true]
    by_cases hba :
        (l.foldl (gpuStep (pyLower (getStrD cpu "brand_raw" ""))) ⟨[], [], false, false⟩).bootArgs = []
    · rw [if_neg (by simp [hba])]
      exact dictSetPath2_lookup2_self _ _ _ _
    · rw [if_pos hba]
      rw [setBootArgsStr_lookup2_other _ _ _ _ (by decide)]
      exact dictSetPath2_lookup2_self _ _ _ _
  · have hany2 : l.any (gpuConfigures (pyLower (getStrD cpu "brand_raw" ""))) = false :=
      Bool.eq_false_iff.2 hany
    simp only [generate_gpu_config_parts, hdbW, gpuLoop_configured, Bool.false_or, hany2,
      Bool.false_eq_true, if_false, List.isEmpty_nil, Bool.not_true, not_true_eq_false]
    by_cases hba :
        (l.foldl (gpuStep (pyLower (getStrD cpu "brand_raw" ""))) ⟨[], [], false, false⟩).bootArgs = []
    · rw [if_neg (by simp [hba])]
      rw [dictSetPath2_lookup2_other _ _ _ _ _ _ (by decide)]
      rfl
    · rw [if_pos hba]
      rw [setBootArgsStr_lookup2_other _ _ _ _ (by decide)]
      rw [dictSetPath2_lookup2_other _ _ _ _ _ _ (by decide)]
      rfl

/-- C8: for every dictionary CPU input (any target model identifier and
any ROM bytes), the CPU generator appends the NVMeFix entry to Kernel/Add
unconditionally; exactly when the brand string satisfies the
modern-Intel-desktop classification, ACPI/Add is the fixed list of four
SSDT patch entries and Kernel/Add also carries the SMCProcessor and
SMCSuperIO plugin entries, and for a non-matching brand ACPI/Add is empty
and neither plugin is present. -/
theorem C8_cpu_parts (cpu : Dict) (smbios : String) (rom : List Nat) :
    ∃ ka aa : List Value,
      dictLookup2 (generate_cpu_config_parts cpu smbios rom) "Kernel" "Add" =
          some (Value.list ka) ∧
      dictLookup2 (generate_cpu_config_parts cpu smbios rom) "ACPI" "Add" =
          some (Value.list aa) ∧
      containsPath ka "NVMeFix.kext" = true ∧
      (isModernIntelDesktop (pyLower (getStrD cpu "brand_raw" "")) = true →
        aa = acpiSsdtEntries ∧ containsPath ka "SMCProcessor.kext" = true ∧
          containsPath ka "SMCSuperIO.kext" = true) ∧
      (isModernIntelDesktop (pyLower (getStrD cpu "brand_raw" "")) = false →
        aa = [] ∧ containsPath ka "SMCProcessor.kext" = false ∧
          containsPath ka "SMCSuperIO.kext" = false) := by
  by_cases hm : isModernIntelDesktop (pyLower (getStrD cpu "brand_raw" "")) = true
  · refine ⟨[mkKextEntry "SMCProcessor", mkKextEntry "SMCSuperIO", mkKextEntry "NVMeFix"],
      acpiSsdtEntries, ?_, ?_, rfl, ?_, ?_⟩
    · simp only [generate_cpu_config_parts, hm, if_true]
      rfl
    · simp only [generate_cpu_config_parts, hm, if_true]
      rfl
    · intro _
      exact ⟨rfl, rfl, rfl⟩
    · intro hc
      rw [hm] at hc
      cases hc
  · have hm2 : isModernIntelDesktop (pyLower (getStrD cpu "brand_raw" "")) = false :=
      Bool.eq_false_iff.2 hm
    refine ⟨[mkKextEntry "NVMeFix"], [], ?_, ?_, rfl, ?_, ?_⟩
    · simp only [generate_cpu_config_parts, hm2, Bool.false_eq_true, if_false]
      rfl
    · simp only [generate_cpu_config_parts, hm2, Bool.false_eq_true, if_false]
      rfl
    · intro hc
      rw [hm2] at hc
      cases hc
    · intro _
      exact ⟨rfl, rfl, rfl⟩

theorem fkLoop_none (pat : String) (ip : Bool) (l : List FsEntry) : ∀ best,
    fkLoop pat ip l best = none →
    best = none ∧ ∀ e ∈ l, kextCandidate pat ip e = false := by
  induction l with
  | nil =>
    intro best h
    exact ⟨h, fun e he => absurd he (List.not_mem_nil e)⟩
  | cons e rest ih =>
    intro best h
    by_cases hc : kextCandidate pat ip e = true
    · cases best with
      | none =>
        simp only [fkLoop, hc, if_true] at h
        obtain ⟨hb, _⟩ := ih _ h
        cases hb
      | some dp =>
        obtain ⟨d0, p0⟩ := dp
        simp only [fkLoop, hc, if_true] at h
        by_cases hlt : e.parts.length < d0
        · rw [if_pos hlt] at h
          obtain ⟨hb, _⟩ := ih _ h
          cases hb
        · rw [if_neg hlt] at h
          obtain ⟨hb, _⟩ := ih _ h
          cases hb
    · simp only [fkLoop] at h
      rw [if_neg hc] at h
      obtain ⟨hb, hrest⟩ := ih _ h
      refine ⟨hb, fun e2 he2 => ?_⟩
      rcases List.mem_cons.1 he2 with rfl | htail
      · exact Bool.eq_false_iff.2 hc
      · exact hrest e2 htail

theorem fkLoop_some (pat : String) (ip : Bool) (l : List FsEntry) : ∀ best d p,
    (∀ d0 p0, best = some (d0, p0) → d0 = p0.length) →
    fkLoop pat ip l best = some (d, p) →
    d = p.length ∧
    (best = some (d, p) ∨ ∃ e ∈ l, kextCandidate pat ip e = true ∧ e.parts = p) ∧
    (∀ e ∈ l, kextCandidate pat ip e = true → d ≤ e.parts.length) ∧
    (∀ d0 p0, best = some (d0, p0) → d ≤ d0) := by
  induction l with
  | nil =>
    intro best d p hwf h
    simp only [fkLoop] at h
    refine ⟨hwf d p h, Or.inl h, fun e he => absurd he (List.not_mem_nil e), ?_⟩
    intro d0 p0 hb
    rw [hb] at h
    injection h with h2
    injection h2 with h3 _
    omega
  | cons e rest ih =>
    intro best d p hwf h
    by_cases hc : kextCandidate pat ip e = true
    · cases best with
      | none =>
        simp only [fkLoop, hc, if_true] at h
        obtain ⟨hd, horig, hmin, hb⟩ :=
          ih (some (e.parts.length, e.parts)) d p
            (by intro d0 p0 hh; injection hh with hh2; injection hh2 with h3 h4; rw [← h3, ← h4]) h
        have hde : d ≤ e.parts.length := hb _ _ rfl
        refine ⟨hd, ?_, ?_, ?_⟩
        · rcases horig with hb2 | ⟨e2, he2, hc2, hp2⟩
          · injection hb2 with hb3
            injection hb3 with h3 h4
            exact Or.inr ⟨e, List.mem_cons_self _ _, hc, h4⟩
          · exact Or.inr ⟨e2, List.mem_cons_of_mem _ he2, hc2, hp2⟩
        · intro e2 he2 hc2
          rcases List.mem_cons.1 he2 with rfl | htail
          · exact hde
          · exact hmin e2 htail hc2
        · intro d0 p0 hb2
          cases hb2
      | some dp =>
        obtain ⟨d0, p0⟩ := dp
        have hd0 : d0 = p0.length := hwf d0 p0 rfl
        simp only [fkLoop, hc, if_true] at h
        by_cases hlt : e.parts.length < d0
        · rw [if_pos hlt] at h
          obtain ⟨hd, horig, hmin, hb⟩ :=
            ih (some (e.parts.length, e.parts)) d p
              (by intro d1 p1 hh; injection hh with hh2; injection hh2 with h3 h4; rw [← h3, ← h4]) h
          have hde : d ≤ e.parts.length := hb _ _ rfl
          refine ⟨hd, ?_, ?_, ?_⟩
          · rcases horig with hb2 | ⟨e2, he2, hc2, hp2⟩
            · injection hb2 with hb3
              injection hb3 with h3 h4
              exact Or.inr ⟨e, List.mem_cons_self _ _, hc, h4⟩
            · exact Or.inr ⟨e2, List.mem_cons_of_mem _ he2, hc2, hp2⟩
          · intro e2 he2 hc2
            rcases List.mem_cons.1 he2 with rfl | htail
            · exact hde
            · exact hmin e2 htail hc2
          · intro d1 p1 hb2
            injection hb2 with hb3
            injection hb3 with h3 h4
            omega
        · rw [if_neg hlt] at h
          obtain ⟨hd, horig, hmin, hb⟩ := ih (some (d0, p0)) d p hwf h
          have hdd0 : d ≤ d0 := hb _ _ rfl
          refine ⟨hd, ?_, ?_, ?_⟩
          · rcases horig with hb2 | ⟨e2, he2, hc2, hp2⟩
            · exact Or.inl hb2
            · exact Or.inr ⟨e2, List.mem_cons_of_mem _ he2, hc2, hp2⟩
          · intro e2 he2 hc2
            rcases List.mem_cons.1 he2 with rfl | htail
            · omega
            · exact hmin e2 htail hc2
          · intro d1 p1 hb2
            injection hb2 with hb3
            injection hb3 with h3 h4
            omega
    · simp only [fkLoop] at h
      rw [if_neg hc] at h
      obtain ⟨hd, horig, hmin, hb⟩ := ih best d p hwf h
      refine ⟨hd, ?_, ?_, hb⟩
      · rcases horig with hb2 | ⟨e2, he2, hc2, hp2⟩
        · exact Or.inl hb2
        · exact Or.inr ⟨e2, List.mem_cons_of_mem _ he2, hc2, hp2⟩
      · intro e2 he2 hc2
        rcases List.mem_cons.1 he2 with rfl | htail
        · rw [hc2] at hc
          exact absurd rfl hc
        · exact hmin e2 htail hc2

/-- C7: whenever the enumerated scratch tree holds at least one directory
whose name starts with the search pattern and ends with the bundle
suffix, the non-plugin search returns one of those candidates, and its
depth (number of path segments from the scratch root) is minimal among
all candidates. -/
theorem C7_shallowest_match (entries : List FsEntry) (pat : String)
    (h : ∃ e ∈ entries, kextCandidate pat false e = true) :
    ∃ p, find_kext_in_dir entries pat false = some p ∧
      (∃ e ∈ entries, kextCandidate pat false e = true ∧ e.parts = p) ∧
      (∀ e ∈ entries, kextCandidate pat false e = true → p.length ≤ e.parts.length) := by
  cases hres : fkLoop pat false entries none with
  | none =>
    obtain ⟨_, hall⟩ := fkLoop_none pat false entries none hres
    obtain ⟨e, he, hce⟩ := h
    rw [hall e he] at hce
    cases hce
  | some dp =>
    obtain ⟨d, p⟩ := dp
    obtain ⟨hd, horig, hmin, _⟩ :=
      fkLoop_some pat false entries none d p (by intro d0 p0 hh; cases hh) hres
    refine ⟨p, ?_, ?_, ?_⟩
    · simp [find_kext_in_dir, hres]
    · rcases horig with hb | he
      · cases hb
      · exact he
    · intro e he hce
      have := hmin e he hce
      omega

theorem resolveAsset_nil (pat : String) (fb : Option String) :
    resolveAsset [] pat fb = none := by
  cases fb <;> simp [resolveAsset]

theorem download_cache_hit (env : DlEnv) (kn rp pat dir : String) (fb : Option String)
    (fs : FS) (assets : List Asset) (a : Asset) (n : Nat)
    (hA : env.assets = some assets) (hR : resolveAsset assets pat fb = some a)
    (hF : fsGet fs (joinPath dir a.name) = some n) (hN : 0 < n) :
    download_kext_zip env kn rp pat dir fb fs = ⟨some (joinPath dir a.name), fs, 0⟩ := by
  have hne : assets.isEmpty = false := by
    cases assets with
    | nil => rw [resolveAsset_nil] at hR; cases hR
    | cons x xs => rfl
  simp only [download_kext_zip, hA, hne, Bool.false_eq_true, if_false, hR, hF]
  rw [if_pos hN]

/-- C6 (amended): if a non-empty file with the resolved asset's declared
name already exists in the destination, the resolver returns that path
with zero downloads and an unchanged filesystem; and a second identical
call after a first call that succeeded AND left a non-empty file performs
zero downloads and returns the same path.  (The original claim omitted
the non-empty proviso: a zero-byte asset is re-downloaded by the second
call.) -/
theorem C6_download_idempotent_amended :
    (∀ (env : DlEnv) (kn rp pat dir : String) (fb : Option String) (fs : FS)
       (assets : List Asset) (a : Asset) (n : Nat),
       env.assets = some assets → resolveAsset assets pat fb = some a →
       fsGet fs (joinPath dir a.name) = some n → 0 < n →
       download_kext_zip env kn rp pat dir fb fs = ⟨some (joinPath dir a.name), fs, 0⟩) ∧
    (∀ (env : DlEnv) (kn rp pat dir : String) (fb : Option String) (fs fs1 : FS)
       (p : String) (k m : Nat),
       download_kext_zip env kn rp pat dir fb fs = ⟨some p, fs1, k⟩ →
       fsGet fs1 p = some m → 0 < m →
       download_kext_zip env kn rp pat dir fb fs1 = ⟨some p, fs1, 0⟩) := by
  refine ⟨download_cache_hit, ?_⟩
  intro env kn rp pat dir fb fs fs1 p k m h1 hF1 hm
  cases hA : env.assets with
  | none =>
    simp only [download_kext_zip, hA] at h1
    injection h1 with hpath _ _
    cases hpath
  | some assets =>
    by_cases hne : assets.isEmpty = true
    · simp only [download_kext_zip, hA] at h1
      rw [if_pos hne] at h1
      injection h1 with hpath _ _
      cases hpath
    · have hne2 : assets.isEmpty = false := Bool.eq_false_iff.2 hne
      cases hR : resolveAsset assets pat fb with
      | none =>
        simp only [download_kext_zip, hA] at h1
        rw [if_neg hne, hR] at h1
        injection h1 with hpath _ _
        cases hpath
      | some a =>
        have hp : p = joinPath dir a.name := by
          simp only [download_kext_zip, hA] at h1
          rw [if_neg hne] at h1
          simp only [hR] at h1
          cases hG : fsGet fs (joinPath dir a.name) with
          | some sz =>
            simp only [hG] at h1
            by_cases hsz : sz > 0
            · rw [if_pos hsz] at h1
              have hpa := congrArg DlOutcome.path h1
              injection hpa with hpa2
              exact hpa2.symm
            · rw [if_neg hsz] at h1
              cases hC : env.contentSize a.url with
              | some n1 =>
                simp only [hC] at h1
                have hpa := congrArg DlOutcome.path h1
                injection hpa with hpa2
                exact hpa2.symm
              | none =>
                simp only [hC] at h1
                have hpa := congrArg DlOutcome.path h1
                cases hpa
          | none =>
            simp only [hG] at h1
            cases hC : env.contentSize a.url with
            | some n1 =>
              simp only [hC] at h1
              have hpa := congrArg DlOutcome.path h1
              injection hpa with hpa2
              exact hpa2.symm
            | none =>
              simp only [hC] at h1
              have hpa := congrArg DlOutcome.path h1
              cases hpa
        subst hp
        exact download_cache_hit env kn rp pat dir fb fs1 assets a m hA hR hF1 hm

/-- C1: merging two trees that both hold the GUID boot-args container
sets the resulting boot-args leaf to the lexicographically sorted,
single-space-joined union of the whitespace tokens of both inputs (the
key is removed entirely when the union is empty), copies the other
sibling keys of the GUID container from the incoming tree with incoming
winning on conflict, and the resulting boot-args leaf is the same in
either merge order. -/
theorem C1_bootargs_union_sorted
    (main new mv nv ma na mc nc : Dict)
    (hndMain : (main.map Prod.fst).Nodup) (hndNew : (new.map Prod.fst).Nodup)
    (hndMc : (mc.map Prod.fst).Nodup) (hndNc : (nc.map Prod.fst).Nodup)
    (hm : dictLookup main "NVRAM" = some (Value.dict mv))
    (hn : dictLookup new "NVRAM" = some (Value.dict nv))
    (hma : dictLookup mv "Add" = some (Value.dict ma))
    (hna : dictLookup nv "Add" = some (Value.dict na))
    (hmc : dictLookup ma guidKey = some (Value.dict mc))
    (hnc : dictLookup na guidKey = some (Value.dict nc)) :
    ∃ g : Dict,
      bootArgsContainer (mergeConfigDicts main new) = some (Value.dict g) ∧
      dictLookup g "boot-args" =
        (if sortedBootArgs (getBootArgsStr mc) (getBootArgsStr nc) = "" then none
         else some (Value.str (sortedBootArgs (getBootArgsStr mc) (getBootArgsStr nc)))) ∧
      (∀ k, k ≠ "boot-args" →
        dictLookup g k =
          (match dictLookup nc k with
           | some v => some v
           | none => dictLookup mc k)) ∧
      bootArgsLeaf (mergeConfigDicts main new) = bootArgsLeaf (mergeConfigDicts new main) := by
  have hguard : nvramGuard mv nv = true := by
    simp [nvramGuard, hma, hna, hmc, hnc]
  have hguard2 : nvramGuard nv mv = true := by
    simp [nvramGuard, hma, hna, hmc, hnc]
  have hmem : ("NVRAM", Value.dict nv) ∈ new := dictLookup_mem _ _ _ hn
  have hmem2 : ("NVRAM", Value.dict mv) ∈ main := dictLookup_mem _ _ _ hm
  have hres := merge_nvram_special new main mv nv hndNew hmem hm hguard
  have hres2 := merge_nvram_special main new nv mv hndMain hmem2 hn hguard2
  have hsp := nvramSpecialMerge_eq mv nv ma na mc nc hma hna hmc hnc
  have hsp2 := nvramSpecialMerge_eq nv mv na ma nc mc hna hma hnc hmc
  refine ⟨guidContMerge mc nc, ?_, ?_, ?_, ?_⟩
  · simp only [bootArgsContainer, hres, hsp, dictLookup_dictInsert_self]
  · exact guidContMerge_bootargs mc nc hndMc
  · intro k hk
    exact guidContMerge_sibling mc nc k hk hndNc
  · simp only [bootArgsLeaf, bootArgsContainer, hres, hres2, hsp, hsp2,
      dictLookup_dictInsert_self]
    rw [guidContMerge_bootargs mc nc hndMc, guidContMerge_bootargs nc mc hndNc,
      sortedBootArgs_comm]

/-- C10: when both trees hold NVRAM/Add with the GUID container, the
merge touches only that container: every other binding of the merged
NVRAM value and of its Add container equals the accumulator's (so
incoming NVRAM content outside the GUID container is discarded, and the
accumulator's NVRAM content outside it is unchanged). -/
theorem C10_nvram_frame
    (main new mv nv ma na : Dict)
    (hndNew : (new.map Prod.fst).Nodup)
    (hm : dictLookup main "NVRAM" = some (Value.dict mv))
    (hn : dictLookup new "NVRAM" = some (Value.dict nv))
    (hma : dictLookup mv "Add" = some (Value.dict ma))
    (hna : dictLookup nv "Add" = some (Value.dict na))
    (hmc : (dictLookup ma guidKey).isSome = true)
    (hnc : (dictLookup na guidKey).isSome = true) :
    ∃ mvr : Dict,
      dictLookup (mergeConfigDicts main new) "NVRAM" = some (Value.dict mvr) ∧
      (∀ k, k ≠ "Add" → dictLookup mvr k = dictLookup mv k) ∧
      ∃ mar : Dict, dictLookup mvr "Add" = some (Value.dict mar) ∧
        (∀ gk, gk ≠ guidKey → dictLookup mar gk = dictLookup ma gk) := by
  have hguard : nvramGuard mv nv = true := by
    simp [nvramGuard, hma, hna, hmc, hnc]
  have hmem : ("NVRAM", Value.dict nv) ∈ new := dictLookup_mem _ _ _ hn
  have hres := merge_nvram_special new main mv nv hndNew hmem hm hguard
  obtain ⟨mcV, hmcV⟩ := Option.isSome_iff_exists.1 hmc
  obtain ⟨ncV, hncV⟩ := Option.isSome_iff_exists.1 hnc
  have hsp : nvramSpecialMerge mv nv =
      dictInsert mv "Add" (Value.dict (dictInsert ma guidKey
        (Value.dict (guidContMerge (asDict mcV) (asDict ncV))))) := by
    simp only [nvramSpecialMerge, hma, hna, hmcV, hncV]
  refine ⟨dictInsert mv "Add" (Value.dict (dictInsert ma guidKey
      (Value.dict (guidContMerge (asDict mcV) (asDict ncV))))), ?_, ?_, ?_⟩
  · rw [hres, hsp]
  · intro k hk
    exact dictLookup_dictInsert_ne _ _ _ _ hk
  · refine ⟨dictInsert ma guidKey (Value.dict (guidContMerge (asDict mcV) (asDict ncV))),
      dictLookup_dictInsert_self _ _ _, ?_⟩
    intro gk hgk
    exact dictLookup_dictInsert_ne _ _ _ _ hgk

/-- C2: the claim says merge_config_dicts appends an incoming kext entry
to Kernel/Add only when no present entry shares its BundlePath.  The
code's own comments state that intent, but the guard on line 201 compares
the value bound to "Kernel" inside the Kernel mapping itself (absent)
with the Add sequence by object identity, so the de-duplicating branch is
dead for tree inputs and the lists concatenate: merging two trees that
each hold one X.kext entry yields two X.kext entries. -/
theorem C2_kernel_add_dedup_dead :
    mergeConfigDicts
      [("Kernel", Value.dict
         [("Add", Value.list [Value.dict [("BundlePath", Value.str "X.kext")]])])]
      [("Kernel", Value.dict
         [("Add", Value.list [Value.dict [("BundlePath", Value.str "X.kext")]])])]
    = [("Kernel", Value.dict [("Add", Value.list
        [Value.dict [("BundlePath", Value.str "X.kext")],
         Value.dict [("BundlePath", Value.str "X.kext")]])])] := by
  simp [mergeConfigDicts, mergeEntry, dictLookup, dictInsert, kernelParentAlias, nvramGuard]

/-- C3 counterexample: starting from a Kernel/Add list that already holds
a Lilu entry (and no VirtualSMC), the injection pass prepends the
synthesized VirtualSMC entry in front of it, so the VirtualSMC entry
(index 0) precedes the Lilu entry (index 1), contradicting the claim that
Lilu strictly precedes VirtualSMC for every starting configuration. -/
theorem C3_essential_order_counterexample :
    injectEssentialKexts [mkKextEntry "Lilu"] =
        [mkKextEntry "VirtualSMC", mkKextEntry "Lilu"] ∧
      firstPathIdx (injectEssentialKexts [mkKextEntry "Lilu"]) "VirtualSMC.kext" = 0 ∧
      firstPathIdx (injectEssentialKexts [mkKextEntry "Lilu"]) "Lilu.kext" = 1 :=
  ⟨rfl, rfl, rfl⟩

/-- C3 witness: on the empty starting list the amended theorem yields the
Lilu entry strictly before the VirtualSMC entry. -/
theorem C3_essential_injection_witness :
    injectEssentialKexts [] = [mkKextEntry "Lilu", mkKextEntry "VirtualSMC"] ∧
      firstPathIdx (injectEssentialKexts []) "Lilu.kext" = 0 ∧
      firstPathIdx (injectEssentialKexts []) "VirtualSMC.kext" = 1 :=
  (C3_essential_injection_amended []).2.2.2 rfl rfl

/-- C4 counterexample: a list holding one Intel-vendor descriptor whose
device id is not on the allow-list (with a non-qualifying CPU) is
processed by the loop, yet the returned Kernel/Add list is empty - no
WhateverGreen entry - contradicting the claim that any Intel descriptor
in the list forces its inclusion. -/
theorem C4_whatevergreen_counterexample :
    dictLookup2 (generate_gpu_config_parts
      [Value.dict [("Name", Value.str "Intel(R) HD Graphics 530"),
                   ("VendorID", Value.str "8086"),
                   ("DeviceID", Value.str "1912")]]
      [("brand_raw", Value.str "Intel(R) Core(TM) i7-6700K CPU @ 4.00GHz")])
      "Kernel" "Add" = some (Value.list []) := rfl

/-- C5 counterexample: on an audio list with no Realtek match (here one
USB audio device), the returned tree still binds DeviceProperties to a
container holding only the empty Add container, contradicting the claim
that no such empty-container section survives. -/
theorem C5_empty_containers_counterexample :
    dictLookup (generate_audio_config_parts
      [Value.dict [("Name", Value.str "USB Audio Device"),
                   ("PNPDeviceID", Value.str "USB\\VID_046D&PID_0A44"),
                   ("VendorID", Value.str "046D")]]) "DeviceProperties"
      = some (Value.dict [("Add", Value.dict [])]) := rfl

/-- C5 witness: the amended no-match shape at a concrete non-matching
input. -/
theorem C5_no_match_witness :
    generate_audio_config_parts
      [Value.dict [("Name", Value.str "USB Audio Device"),
                   ("PNPDeviceID", Value.str "USB\\VID_046D&PID_0A44"),
                   ("VendorID", Value.str "046D")]] =
      [("DeviceProperties", Value.dict [("Add", Value.dict [])]),
       ("Kernel", Value.dict [("Add", Value.list [])])] :=
  C5_no_match_prunes_only_nvram _ (by decide)

/-- C6 counterexample: with a release whose matching asset streams zero
bytes, the first call succeeds and writes an empty file, and the second
identical call performs one download again (not zero), refuting the
unconditional two-call claim. -/
theorem C6_zero_byte_redownload_counterexample :
    (download_kext_zip ⟨some [⟨"A-RELEASE.zip", "u"⟩], fun _ => some 0⟩
        "A" "r/a" "*RELEASE.zip" "d" none ⟨[]⟩).path = some "d/A-RELEASE.zip" ∧
      (download_kext_zip ⟨some [⟨"A-RELEASE.zip", "u"⟩], fun _ => some 0⟩
        "A" "r/a" "*RELEASE.zip" "d" none
        (download_kext_zip ⟨some [⟨"A-RELEASE.zip", "u"⟩], fun _ => some 0⟩
          "A" "r/a" "*RELEASE.zip" "d" none ⟨[]⟩).fs).path = some "d/A-RELEASE.zip" ∧
      (download_kext_zip ⟨some [⟨"A-RELEASE.zip", "u"⟩], fun _ => some 0⟩
        "A" "r/a" "*RELEASE.zip" "d" none
        (download_kext_zip ⟨some [⟨"A-RELEASE.zip", "u"⟩], fun _ => some 0⟩
          "A" "r/a" "*RELEASE.zip" "d" none ⟨[]⟩).fs).downloads = 1 :=
  ⟨rfl, rfl, rfl⟩

/-- C6 witness: a cache hit at a concrete environment returns the
existing path with zero downloads. -/
theorem C6_download_witness :
    download_kext_zip ⟨some [⟨"Lilu-1.6.7-RELEASE.zip", "u1"⟩], fun _ => some 3⟩
        "Lilu" "acidanthera/Lilu" "*RELEASE.zip" "d" none
        ⟨[("d/Lilu-1.6.7-RELEASE.zip", 3)]⟩ =
      ⟨some "d/Lilu-1.6.7-RELEASE.zip", ⟨[("d/Lilu-1.6.7-RELEASE.zip", 3)]⟩, 0⟩ :=
  C6_download_idempotent_amended.1 _ "Lilu" "acidanthera/Lilu" "*RELEASE.zip" "d" none
    _ [⟨"Lilu-1.6.7-RELEASE.zip", "u1"⟩] ⟨"Lilu-1.6.7-RELEASE.zip", "u1"⟩ 3
    rfl rfl rfl (by decide)

/-- C7 witness: the tree holding Top/Foo.kext together with its
redundantly nested copy Top/Foo.kext/Contents/PlugIns/Foo.kext: the
search selects the shallow copy. -/
theorem C7_shallowest_match_witness :
    (∃ p, find_kext_in_dir
        [⟨["Top"], true⟩, ⟨["Top", "Foo.kext"], true⟩,
         ⟨["Top", "Foo.kext", "Contents"], true⟩,
         ⟨["Top", "Foo.kext", "Contents", "PlugIns"], true⟩,
         ⟨["Top", "Foo.kext", "Contents", "PlugIns", "Foo.kext"], true⟩]
        "Foo" false = some p ∧
      (∃ e ∈ [⟨["Top"], true⟩, ⟨["Top", "Foo.kext"], true⟩,
         ⟨["Top", "Foo.kext", "Contents"], true⟩,
         ⟨["Top", "Foo.kext", "Contents", "PlugIns"], true⟩,
         ⟨["Top", "Foo.kext", "Contents", "PlugIns", "Foo.kext"], true⟩],
        kextCandidate "Foo" false e = true ∧ e.parts = p) ∧
      (∀ e ∈ [⟨["Top"], true⟩, ⟨["Top", "Foo.kext"], true⟩,
         ⟨["Top", "Foo.kext", "Contents"], true⟩,
         ⟨["Top", "Foo.kext", "Contents", "PlugIns"], true⟩,
         ⟨["Top", "Foo.kext", "Contents", "PlugIns", "Foo.kext"], true⟩],
        kextCandidate "Foo" false e = true → p.length ≤ e.parts.length)) ∧
    find_kext_in_dir
        [⟨["Top"], true⟩, ⟨["Top", "Foo.kext"], true⟩,
         ⟨["Top", "Foo.kext", "Contents"], true⟩,
         ⟨["Top", "Foo.kext", "Contents", "PlugIns"], true⟩,
         ⟨["Top", "Foo.kext", "Contents", "PlugIns", "Foo.kext"], true⟩]
        "Foo" false = some ["Top", "Foo.kext"] :=
  ⟨C7_shallowest_match _ "Foo" (by decide), rfl⟩

/-- C8 witness: a 12th-generation desktop brand string instantiates the
modern branch of the CPU-parts theorem. -/
theorem C8_cpu_parts_witness :
    ∃ ka aa : List Value,
      dictLookup2 (generate_cpu_config_parts
          [("brand_raw", Value.str "12th Gen Intel(R) Core(TM) i7-12700K")]
          "iMac20,2" [0, 0, 0, 0, 0, 0]) "Kernel" "Add" = some (Value.list ka) ∧
      dictLookup2 (generate_cpu_config_parts
          [("brand_raw", Value.str "12th Gen Intel(R) Core(TM) i7-12700K")]
          "iMac20,2" [0, 0, 0, 0, 0, 0]) "ACPI" "Add" = some (Value.list aa) ∧
      containsPath ka "NVMeFix.kext" = true ∧
      (isModernIntelDesktop (pyLower (getStrD
          [("brand_raw", Value.str "12th Gen Intel(R) Core(TM) i7-12700K")]
          "brand_raw" "")) = true →
        aa = acpiSsdtEntries ∧ containsPath ka "SMCProcessor.kext" = true ∧
          containsPath ka "SMCSuperIO.kext" = true) ∧
      (isModernIntelDesktop (pyLower (getStrD
          [("brand_raw", Value.str "12th Gen Intel(R) Core(TM) i7-12700K")]
          "brand_raw" "")) = false →
        aa = [] ∧ containsPath ka "SMCProcessor.kext" = false ∧
          containsPath ka "SMCSuperIO.kext" = false) :=
  C8_cpu_parts _ "iMac20,2" [0, 0, 0, 0, 0, 0]

/-- C9 witness: two Realtek HDAUDIO descriptors; the generator emits one
device-property entry, one alcid boot argument and one AppleALC entry. -/
theorem C9_audio_first_match_witness :
    dictLookup2 (generate_audio_config_parts
        [Value.dict [("Name", Value.str "Realtek High Definition Audio"),
                     ("PNPDeviceID", Value.str "HDAUDIO\\FUNC_01&VEN_10EC&DEV_0897"),
                     ("VendorID", Value.str "10EC")],
         Value.dict [("Name", Value.str "Realtek Audio (rear)"),
                     ("PNPDeviceID", Value.str "HDAUDIO\\FUNC_01&VEN_10EC&DEV_0900"),
                     ("VendorID", Value.str "10EC")]]) "DeviceProperties" "Add" =
        some (Value.dict [(audioPciPath, Value.dict
          [("layout-id", Value.bytes (toBytes4LE 11))])]) ∧
      bootArgsLeaf (generate_audio_config_parts
        [Value.dict [("Name", Value.str "Realtek High Definition Audio"),
                     ("PNPDeviceID", Value.str "HDAUDIO\\FUNC_01&VEN_10EC&DEV_0897"),
                     ("VendorID", Value.str "10EC")],
         Value.dict [("Name", Value.str "Realtek Audio (rear)"),
                     ("PNPDeviceID", Value.str "HDAUDIO\\FUNC_01&VEN_10EC&DEV_0900"),
                     ("VendorID", Value.str "10EC")]]) = some (Value.str "alcid=11") ∧
      dictLookup2 (generate_audio_config_parts
        [Value.dict [("Name", Value.str "Realtek High Definition Audio"),
                     ("PNPDeviceID", Value.str "HDAUDIO\\FUNC_01&VEN_10EC&DEV_0897"),
                     ("VendorID", Value.str "10EC")],
         Value.dict [("Name", Value.str "Realtek Audio (rear)"),
                     ("PNPDeviceID", Value.str "HDAUDIO\\FUNC_01&VEN_10EC&DEV_0900"),
                     ("VendorID", Value.str "10EC")]]) "Kernel" "Add" =
        some (Value.list [mkKextEntry "AppleALC"]) :=
  C9_audio_first_match_wins _ (by decide)

/-- C1 witness: the claim's example, boot-args "a c" merged with
"b a" yields exactly "a b c". -/
theorem C1_bootargs_union_witness :
    ∃ g : Dict,
      bootArgsContainer (mergeConfigDicts
        [("NVRAM", Value.dict [("Add", Value.dict
           [(guidKey, Value.dict [("boot-args", Value.str "a c")])])])]
        [("NVRAM", Value.dict [("Add", Value.dict
           [(guidKey, Value.dict [("boot-args", Value.str "b a")])])])])
        = some (Value.dict g) ∧
      dictLookup g "boot-args" = some (Value.str "a b c") := by
  obtain ⟨g, hg, hba, _, _⟩ :=
    C1_bootargs_union_sorted
      [("NVRAM", Value.dict [("Add", Value.dict
         [(guidKey, Value.dict [("boot-args", Value.str "a c")])])])]
      [("NVRAM", Value.dict [("Add", Value.dict
         [(guidKey, Value.dict [("boot-args", Value.str "b a")])])])]
      [("Add", Value.dict [(guidKey, Value.dict [("boot-args", Value.str "a c")])])]
      [("Add", Value.dict [(guidKey, Value.dict [("boot-args", Value.str "b a")])])]
      [(guidKey, Value.dict [("boot-args", Value.str "a c")])]
      [(guidKey, Value.dict [("boot-args", Value.str "b a")])]
      [("boot-args", Value.str "a c")]
      [("boot-args", Value.str "b a")]
      (by decide) (by decide) (by decide) (by decide)
      rfl rfl rfl rfl rfl rfl
  refine ⟨g, hg, ?_⟩
  rw [hba]
  rfl

/-- C10 witness: a concrete merge in which the incoming tree's extra GUID
entry and extra NVRAM child are discarded while the accumulator's extra
GUID entry survives. -/
theorem C10_nvram_frame_witness :
    ∃ mvr : Dict,
      dictLookup (mergeConfigDicts
        [("NVRAM", Value.dict [("Add", Value.dict
           [(guidKey, Value.dict [("boot-args", Value.str "x")]),
            ("OTHER-GUID", Value.dict [("k", Value.str "keep")])])])]
        [("NVRAM", Value.dict
           [("Add", Value.dict
              [(guidKey, Value.dict [("boot-args", Value.str "y")]),
               ("NEW-GUID", Value.dict [])]),
            ("Delete", Value.dict [])])]) "NVRAM" = some (Value.dict mvr) ∧
      dictLookup mvr "Delete" = none ∧
      ∃ mar : Dict, dictLookup mvr "Add" = some (Value.dict mar) ∧
        dictLookup mar "OTHER-GUID" = some (Value.dict [("k", Value.str "keep")]) ∧
        dictLookup mar "NEW-GUID" = none := by
  obtain ⟨mvr, h1, h2, mar, h3, h4⟩ :=
    C10_nvram_frame
      [("NVRAM", Value.dict [("Add", Value.dict
         [(guidKey, Value.dict [("boot-args", Value.str "x")]),
          ("OTHER-GUID", Value.dict [("k", Value.str "keep")])])])]
      [("NVRAM", Value.dict
         [("Add", Value.dict
            [(guidKey, Value.dict [("boot-args", Value.str "y")]),
             ("NEW-GUID", Value.dict [])]),
          ("Delete", Value.dict [])])]
      [("Add", Value.dict
         [(guidKey, Value.dict [("boot-args", Value.str "x")]),
          ("OTHER-GUID", Value.dict [("k", Value.str "keep")])])]
      [("Add", Value.dict
          [(guidKey, Value.dict [("boot-args", Value.str "y")]),
           ("NEW-GUID", Value.dict [])]),
       ("Delete", Value.dict [])]
      [(guidKey, Value.dict [("boot-args", Value.str "x")]),
       ("OTHER-GUID", Value.dict [("k", Value.str "keep")])]
      [(guidKey, Value.dict [("boot-args", Value.str "y")]),
       ("NEW-GUID", Value.dict [])]
      (by decide) rfl rfl rfl rfl rfl rfl
  refine ⟨mvr, h1, ?_, mar, h3, ?_, ?_⟩
  · rw [h2 "Delete" (by decide)]
    rfl
  · rw [h4 "OTHER-GUID" (by decide)]
    rfl
  · rw [h4 "NEW-GUID" (by decide)]
    rfl
